import Mathlib

/-!
Shallow embedding of the care-plan contract
(src/contracts/care-plan/src/{types.rs, storage.rs, lib.rs}).

Addresses, symbols and strings are opaque to the contract logic; we model
`Address` as `Nat`, `Symbol`/`String` as Lean `String`, and the 32-byte
review-notes hash as `Nat`.  The Soroban persistent storage becomes an
explicit `State` record: one `Nat → Option _` map per entity namespace,
one `Nat → List _` map per relationship index, and one counter per
allocatable entity type.  `require_auth` becomes a boolean gate
`auth : Addr → Bool` supplied per call, and the ledger timestamp becomes
an explicit `now : Nat` argument.  Event publication has no effect on
contract state and is not modelled.
-/

namespace CarePlanContract

abbrev Addr := Nat
abbrev Str := String
abbrev Hash := Nat

/-- types.rs `Error` (contracterror). -/
inductive Error where
  | Unauthorized
  | CarePlanNotFound
  | GoalNotFound
  | InterventionNotFound
  | BarrierNotFound
  | ReviewNotFound
  | GoalAlreadyAchieved
  | GoalDiscontinued
  | BarrierAlreadyResolved
  | ReviewAlreadyConducted
  deriving DecidableEq, Repr

/-- types.rs `GoalStatus`. -/
inductive GoalStatus where
  | Active
  | OnTrack
  | AtRisk
  | Achieved
  | Discontinued
  deriving DecidableEq, Repr

/-- types.rs `CarePlanStatus`. -/
inductive CarePlanStatus where
  | Active
  | UnderReview
  | Completed
  | Discontinued
  deriving DecidableEq, Repr

/-- types.rs `ProgressEntry`. -/
structure ProgressEntry where
  goal_id : Nat
  patient_id : Addr
  current_value : Str
  progress_note : Str
  recorded_date : Nat
  deriving DecidableEq, Repr

/-- types.rs `CareGoal`. -/
structure CareGoal where
  goal_id : Nat
  care_plan_id : Nat
  description : Str
  target_value : Option Str
  target_date : Nat
  priority : Str
  status : GoalStatus
  progress_entries : List ProgressEntry
  achievement_date : Option Nat
  outcome_notes : Option Str
  created_by : Addr
  created_at : Nat
  deriving DecidableEq, Repr

/-- types.rs `Intervention`. -/
structure Intervention where
  intervention_id : Nat
  care_plan_id : Nat
  intervention_type : Str
  description : Str
  frequency : Str
  responsible_party : Str
  assigned_by : Addr
  created_at : Nat
  deriving DecidableEq, Repr

/-- types.rs `Barrier`. -/
structure Barrier where
  barrier_id : Nat
  care_plan_id : Nat
  reporter : Addr
  barrier_type : Str
  description : Str
  identified_date : Nat
  resolved : Bool
  resolution : Option Str
  resolution_date : Option Nat
  resolved_by : Option Addr
  deriving DecidableEq, Repr

/-- types.rs `CareReview`. -/
structure CareReview where
  review_id : Nat
  care_plan_id : Nat
  scheduled_by : Addr
  review_date : Nat
  review_type : Str
  conducted : Bool
  review_notes_hash : Option Hash
  plan_modifications : List Str
  continue_plan : Bool
  conducted_by : Option Addr
  conducted_at : Option Nat
  deriving DecidableEq, Repr

/-- types.rs `CareTeamMember`. -/
structure CareTeamMember where
  care_plan_id : Nat
  team_member : Addr
  role : Str
  responsibilities : List Str
  assigned_by : Addr
  assigned_at : Nat
  deriving DecidableEq, Repr

/-- types.rs `CarePlan`. -/
structure CarePlan where
  care_plan_id : Nat
  patient_id : Addr
  provider_id : Addr
  plan_type : Str
  conditions : List Str
  goals : List Str
  start_date : Nat
  review_frequency_days : Nat
  status : CarePlanStatus
  next_review_date : Nat
  last_review_date : Option Nat
  created_at : Nat
  deriving DecidableEq, Repr

/-- types.rs `CarePlanSummary`. -/
structure CarePlanSummary where
  care_plan_id : Nat
  patient_id : Addr
  plan_type : Str
  active_goals : List CareGoal
  interventions : List Intervention
  care_team : List CareTeamMember
  barriers : List Barrier
  last_review_date : Option Nat
  next_review_date : Nat
  deriving DecidableEq, Repr

/-- The whole persistent storage of the contract: the `DataKey` namespaces
of types.rs, flattened into one record.  Counters store the last
allocated id (0 when absent, matching `unwrap_or(0)`). -/
structure State where
  carePlanCounter : Nat
  goalCounter : Nat
  interventionCounter : Nat
  barrierCounter : Nat
  reviewCounter : Nat
  carePlans : Nat → Option CarePlan
  goalsMap : Nat → Option CareGoal
  interventionsMap : Nat → Option Intervention
  barriersMap : Nat → Option Barrier
  reviewsMap : Nat → Option CareReview
  planGoals : Nat → List Nat
  planInterventions : Nat → List Nat
  planBarriers : Nat → List Nat
  planReviews : Nat → List Nat
  planCareTeam : Nat → List CareTeamMember
  patientPlans : Addr → List Nat

/-- The empty store: every counter absent (0) and every namespace empty. -/
def State.empty : State where
  carePlanCounter := 0
  goalCounter := 0
  interventionCounter := 0
  barrierCounter := 0
  reviewCounter := 0
  carePlans := fun _ => none
  goalsMap := fun _ => none
  interventionsMap := fun _ => none
  barriersMap := fun _ => none
  reviewsMap := fun _ => none
  planGoals := fun _ => []
  planInterventions := fun _ => []
  planBarriers := fun _ => []
  planReviews := fun _ => []
  planCareTeam := fun _ => []
  patientPlans := fun _ => []

/-- Point update of a keyed namespace (`storage().persistent().set`). -/
def upd {α : Type} (m : Nat → Option α) (k : Nat) (v : α) : Nat → Option α :=
  fun i => if i = k then some v else m i

/-- Append one child under a parent key (`get … unwrap_or(new); push_back; set`). -/
def appendAt {α : Type} (m : Nat → List α) (k : Nat) (v : α) : Nat → List α :=
  fun i => if i = k then m k ++ [v] else m i

/-! storage.rs: counter helpers -/

/-- storage.rs `next_care_plan_id`: read counter (default 0), increment,
persist, return the new value. -/
def next_care_plan_id (s : State) : Nat × State :=
  let id := s.carePlanCounter
  let next := id + 1
  (next, { s with carePlanCounter := next })

/-- storage.rs `next_goal_id`. -/
def next_goal_id (s : State) : Nat × State :=
  let id := s.goalCounter
  let next := id + 1
  (next, { s with goalCounter := next })

/-- storage.rs `next_intervention_id`. -/
def next_intervention_id (s : State) : Nat × State :=
  let id := s.interventionCounter
  let next := id + 1
  (next, { s with interventionCounter := next })

/-- storage.rs `next_barrier_id`. -/
def next_barrier_id (s : State) : Nat × State :=
  let id := s.barrierCounter
  let next := id + 1
  (next, { s with barrierCounter := next })

/-- storage.rs `next_review_id`. -/
def next_review_id (s : State) : Nat × State :=
  let id := s.reviewCounter
  let next := id + 1
  (next, { s with reviewCounter := next })

/-! storage.rs: record save/load and index helpers -/

/-- storage.rs `save_care_plan`: keyed by `plan.care_plan_id`. -/
def save_care_plan (s : State) (plan : CarePlan) : State :=
  { s with carePlans := upd s.carePlans plan.care_plan_id plan }

/-- storage.rs `load_care_plan`. -/
def load_care_plan (s : State) (care_plan_id : Nat) : Option CarePlan :=
  s.carePlans care_plan_id

/-- storage.rs `add_patient_plan`. -/
def add_patient_plan (s : State) (patient_id : Addr) (care_plan_id : Nat) :
    State :=
  { s with patientPlans := appendAt s.patientPlans patient_id care_plan_id }

/-- storage.rs `save_goal`: keyed by `goal.goal_id`. -/
def save_goal (s : State) (goal : CareGoal) : State :=
  { s with goalsMap := upd s.goalsMap goal.goal_id goal }

/-- storage.rs `load_goal`. -/
def load_goal (s : State) (goal_id : Nat) : Option CareGoal :=
  s.goalsMap goal_id

/-- storage.rs `add_plan_goal`. -/
def add_plan_goal (s : State) (care_plan_id goal_id : Nat) : State :=
  { s with planGoals := appendAt s.planGoals care_plan_id goal_id }

/-- storage.rs `load_plan_goals`. -/
def load_plan_goals (s : State) (care_plan_id : Nat) : List Nat :=
  s.planGoals care_plan_id

/-- storage.rs `save_intervention`: keyed by `intervention.intervention_id`. -/
def save_intervention (s : State) (i : Intervention) : State :=
  { s with interventionsMap := upd s.interventionsMap i.intervention_id i }

/-- storage.rs `load_intervention`. -/
def load_intervention (s : State) (intervention_id : Nat) :
    Option Intervention :=
  s.interventionsMap intervention_id

/-- storage.rs `add_plan_intervention`. -/
def add_plan_intervention (s : State) (care_plan_id intervention_id : Nat) :
    State :=
  { s with planInterventions :=
      appendAt s.planInterventions care_plan_id intervention_id }

/-- storage.rs `load_plan_interventions`. -/
def load_plan_interventions (s : State) (care_plan_id : Nat) : List Nat :=
  s.planInterventions care_plan_id

/-- storage.rs `save_barrier`: keyed by `barrier.barrier_id`. -/
def save_barrier (s : State) (b : Barrier) : State :=
  { s with barriersMap := upd s.barriersMap b.barrier_id b }

/-- storage.rs `load_barrier`. -/
def load_barrier (s : State) (barrier_id : Nat) : Option Barrier :=
  s.barriersMap barrier_id

/-- storage.rs `add_plan_barrier`. -/
def add_plan_barrier (s : State) (care_plan_id barrier_id : Nat) : State :=
  { s with planBarriers := appendAt s.planBarriers care_plan_id barrier_id }

/-- storage.rs `load_plan_barriers`: loads every indexed barrier id,
skipping ids that do not resolve to a stored record. -/
def load_plan_barriers (s : State) (care_plan_id : Nat) : List Barrier :=
  (s.planBarriers care_plan_id).filterMap fun id => load_barrier s id

/-- storage.rs `save_review`: keyed by `review.review_id`. -/
def save_review (s : State) (r : CareReview) : State :=
  { s with reviewsMap := upd s.reviewsMap r.review_id r }

/-- storage.rs `load_review`. -/
def load_review (s : State) (review_id : Nat) : Option CareReview :=
  s.reviewsMap review_id

/-- storage.rs `add_plan_review`. -/
def add_plan_review (s : State) (care_plan_id review_id : Nat) : State :=
  { s with planReviews := appendAt s.planReviews care_plan_id review_id }

/-- storage.rs `load_care_team`. -/
def load_care_team (s : State) (care_plan_id : Nat) : List CareTeamMember :=
  s.planCareTeam care_plan_id

/-- storage.rs `save_care_team`. -/
def save_care_team (s : State) (care_plan_id : Nat)
    (team : List CareTeamMember) : State :=
  { s with planCareTeam := fun i =>
      if i = care_plan_id then team else s.planCareTeam i }

/-! lib.rs: the command surface.  Each command takes the authorization
gate `a : Addr → Bool` (the outcome of `require_auth` for each address),
the current ledger timestamp `now`, the Rust arguments, and the store;
it returns the Rust `Result` together with the post-state.  A failed
`require_auth` aborts the call before any state is touched. -/

/-- lib.rs `create_care_plan`. -/
def create_care_plan (a : Addr → Bool) (now : Nat)
    (patient_id provider_id : Addr) (plan_type : Str)
    (conditions goals : List Str) (start_date review_frequency_days : Nat)
    (s : State) : Except Error Nat × State :=
  if a provider_id then
    let alloc := next_care_plan_id s
    let care_plan_id := alloc.fst
    let s1 := alloc.snd
    let next_review_date := start_date + review_frequency_days * 86400
    let plan : CarePlan :=
      { care_plan_id := care_plan_id
        patient_id := patient_id
        provider_id := provider_id
        plan_type := plan_type
        conditions := conditions
        goals := goals
        start_date := start_date
        review_frequency_days := review_frequency_days
        status := CarePlanStatus.Active
        next_review_date := next_review_date
        last_review_date := none
        created_at := now }
    let s2 := save_care_plan s1 plan
    let s3 := add_patient_plan s2 patient_id care_plan_id
    (Except.ok care_plan_id, s3)
  else (Except.error Error.Unauthorized, s)

/-- lib.rs `add_care_goal`. -/
def add_care_goal (a : Addr → Bool) (now : Nat) (care_plan_id : Nat)
    (provider_id : Addr) (goal_description : Str)
    (target_value : Option Str) (target_date : Nat) (priority : Str)
    (s : State) : Except Error Nat × State :=
  if a provider_id then
    match load_care_plan s care_plan_id with
    | none => (Except.error Error.CarePlanNotFound, s)
    | some _ =>
      let alloc := next_goal_id s
      let goal_id := alloc.fst
      let s1 := alloc.snd
      let goal : CareGoal :=
        { goal_id := goal_id
          care_plan_id := care_plan_id
          description := goal_description
          target_value := target_value
          target_date := target_date
          priority := priority
          status := GoalStatus.Active
          progress_entries := []
          achievement_date := none
          outcome_notes := none
          created_by := provider_id
          created_at := now }
      let s2 := save_goal s1 goal
      let s3 := add_plan_goal s2 care_plan_id goal_id
      (Except.ok goal_id, s3)
  else (Except.error Error.Unauthorized, s)

/-- lib.rs `add_intervention`. -/
def add_intervention (a : Addr → Bool) (now : Nat) (care_plan_id : Nat)
    (provider_id : Addr) (intervention_type description frequency
    responsible_party : Str) (s : State) : Except Error Nat × State :=
  if a provider_id then
    match load_care_plan s care_plan_id with
    | none => (Except.error Error.CarePlanNotFound, s)
    | some _ =>
      let alloc := next_intervention_id s
      let intervention_id := alloc.fst
      let s1 := alloc.snd
      let intervention : Intervention :=
        { intervention_id := intervention_id
          care_plan_id := care_plan_id
          intervention_type := intervention_type
          description := description
          frequency := frequency
          responsible_party := responsible_party
          assigned_by := provider_id
          created_at := now }
      let s2 := save_intervention s1 intervention
      let s3 := add_plan_intervention s2 care_plan_id intervention_id
      (Except.ok intervention_id, s3)
  else (Except.error Error.Unauthorized, s)

/-- lib.rs `record_goal_progress`. -/
def record_goal_progress (a : Addr → Bool) (goal_id : Nat)
    (patient_id : Addr) (current_value progress_note : Str)
    (recorded_date : Nat) (s : State) : Except Error Unit × State :=
  if a patient_id then
    match load_goal s goal_id with
    | none => (Except.error Error.GoalNotFound, s)
    | some goal =>
      if goal.status = GoalStatus.Achieved then
        (Except.error Error.GoalAlreadyAchieved, s)
      else if goal.status = GoalStatus.Discontinued then
        (Except.error Error.GoalDiscontinued, s)
      else
        let entry : ProgressEntry :=
          { goal_id := goal_id
            patient_id := patient_id
            current_value := current_value
            progress_note := progress_note
            recorded_date := recorded_date }
        let s1 := save_goal s
          { goal with progress_entries := goal.progress_entries ++ [entry] }
        (Except.ok (), s1)
  else (Except.error Error.Unauthorized, s)

/-- lib.rs `mark_goal_achieved`. -/
def mark_goal_achieved (a : Addr → Bool) (goal_id : Nat)
    (provider_id : Addr) (achievement_date : Nat) (outcome_notes : Str)
    (s : State) : Except Error Unit × State :=
  if a provider_id then
    match load_goal s goal_id with
    | none => (Except.error Error.GoalNotFound, s)
    | some goal =>
      if goal.status = GoalStatus.Achieved then
        (Except.error Error.GoalAlreadyAchieved, s)
      else if goal.status = GoalStatus.Discontinued then
        (Except.error Error.GoalDiscontinued, s)
      else
        let s1 := save_goal s
          { goal with
              status := GoalStatus.Achieved
              achievement_date := some achievement_date
              outcome_notes := some outcome_notes }
        (Except.ok (), s1)
  else (Except.error Error.Unauthorized, s)

/-- lib.rs `add_barrier`. -/
def add_barrier (a : Addr → Bool) (care_plan_id : Nat) (reporter : Addr)
    (barrier_type description : Str) (identified_date : Nat) (s : State) :
    Except Error Nat × State :=
  if a reporter then
    match load_care_plan s care_plan_id with
    | none => (Except.error Error.CarePlanNotFound, s)
    | some _ =>
      let alloc := next_barrier_id s
      let barrier_id := alloc.fst
      let s1 := alloc.snd
      let barrier : Barrier :=
        { barrier_id := barrier_id
          care_plan_id := care_plan_id
          reporter := reporter
          barrier_type := barrier_type
          description := description
          identified_date := identified_date
          resolved := false
          resolution := none
          resolution_date := none
          resolved_by := none }
      let s2 := save_barrier s1 barrier
      let s3 := add_plan_barrier s2 care_plan_id barrier_id
      (Except.ok barrier_id, s3)
  else (Except.error Error.Unauthorized, s)

/-- lib.rs `resolve_barrier`. -/
def resolve_barrier (a : Addr → Bool) (barrier_id : Nat)
    (provider_id : Addr) (resolution : Str) (resolution_date : Nat)
    (s : State) : Except Error Unit × State :=
  if a provider_id then
    match load_barrier s barrier_id with
    | none => (Except.error Error.BarrierNotFound, s)
    | some barrier =>
      if barrier.resolved then
        (Except.error Error.BarrierAlreadyResolved, s)
      else
        let s1 := save_barrier s
          { barrier with
              resolved := true
              resolution := some resolution
              resolution_date := some resolution_date
              resolved_by := some provider_id }
        (Except.ok (), s1)
  else (Except.error Error.Unauthorized, s)

/-- lib.rs `schedule_care_plan_review`. -/
def schedule_care_plan_review (a : Addr → Bool) (care_plan_id : Nat)
    (provider_id : Addr) (review_date : Nat) (review_type : Str)
    (s : State) : Except Error Nat × State :=
  if a provider_id then
    match load_care_plan s care_plan_id with
    | none => (Except.error Error.CarePlanNotFound, s)
    | some _ =>
      let alloc := next_review_id s
      let review_id := alloc.fst
      let s1 := alloc.snd
      let review : CareReview :=
        { review_id := review_id
          care_plan_id := care_plan_id
          scheduled_by := provider_id
          review_date := review_date
          review_type := review_type
          conducted := false
          review_notes_hash := none
          plan_modifications := []
          continue_plan := true
          conducted_by := none
          conducted_at := none }
      let s2 := save_review s1 review
      let s3 := add_plan_review s2 care_plan_id review_id
      (Except.ok review_id, s3)
  else (Except.error Error.Unauthorized, s)

/-- lib.rs `conduct_care_plan_review`. -/
def conduct_care_plan_review (a : Addr → Bool) (now : Nat)
    (review_id : Nat) (provider_id : Addr) (review_notes_hash : Hash)
    (plan_modifications : List Str) (continue_plan : Bool) (s : State) :
    Except Error Unit × State :=
  if a provider_id then
    match load_review s review_id with
    | none => (Except.error Error.ReviewNotFound, s)
    | some review =>
      if review.conducted then
        (Except.error Error.ReviewAlreadyConducted, s)
      else
        let conducted_at := now
        let review2 : CareReview :=
          { review with
              conducted := true
              review_notes_hash := some review_notes_hash
              plan_modifications := plan_modifications
              continue_plan := continue_plan
              conducted_by := some provider_id
              conducted_at := some conducted_at }
        let s1 :=
          match load_care_plan s review.care_plan_id with
          | some plan =>
            let plan2 : CarePlan :=
              { plan with
                  last_review_date := some conducted_at
                  next_review_date :=
                    conducted_at + plan.review_frequency_days * 86400
                  status :=
                    if continue_plan then plan.status
                    else CarePlanStatus.Completed }
            save_care_plan s plan2
          | none => s
        let s2 := save_review s1 review2
        (Except.ok (), s2)
  else (Except.error Error.Unauthorized, s)

/-- lib.rs `assign_care_team_member`. -/
def assign_care_team_member (a : Addr → Bool) (now : Nat)
    (care_plan_id : Nat) (coordinating_provider team_member : Addr)
    (role : Str) (responsibilities : List Str) (s : State) :
    Except Error Unit × State :=
  if a coordinating_provider then
    match load_care_plan s care_plan_id with
    | none => (Except.error Error.CarePlanNotFound, s)
    | some _ =>
      let team := load_care_team s care_plan_id
      let member : CareTeamMember :=
        { care_plan_id := care_plan_id
          team_member := team_member
          role := role
          responsibilities := responsibilities
          assigned_by := coordinating_provider
          assigned_at := now }
      let s1 := save_care_team s care_plan_id (team ++ [member])
      (Except.ok (), s1)
  else (Except.error Error.Unauthorized, s)

/-- lib.rs `get_care_plan_summary`. -/
def get_care_plan_summary (a : Addr → Bool) (care_plan_id : Nat)
    (requester : Addr) (s : State) : Except Error CarePlanSummary × State :=
  if a requester then
    match load_care_plan s care_plan_id with
    | none => (Except.error Error.CarePlanNotFound, s)
    | some plan =>
      let goal_ids := load_plan_goals s care_plan_id
      let active_goals := goal_ids.filterMap fun id =>
        match load_goal s id with
        | some g =>
          if g.status = GoalStatus.Achieved ∨ g.status = GoalStatus.Discontinued
          then none else some g
        | none => none
      let intervention_ids := load_plan_interventions s care_plan_id
      let interventions := intervention_ids.filterMap fun id =>
        load_intervention s id
      let care_team := load_care_team s care_plan_id
      let barriers := load_plan_barriers s care_plan_id
      (Except.ok
        { care_plan_id := care_plan_id
          patient_id := plan.patient_id
          plan_type := plan.plan_type
          active_goals := active_goals
          interventions := interventions
          care_team := care_team
          barriers := barriers
          last_review_date := plan.last_review_date
          next_review_date := plan.next_review_date }, s)
  else (Except.error Error.Unauthorized, s)

/-! The command surface as a single step function, so that properties of
whole call sequences can be stated. -/

/-- One contract invocation with its arguments (the `#[contractimpl]`
entry points of lib.rs). -/
inductive Cmd where
  | createCarePlan (patient_id provider_id : Addr) (plan_type : Str)
      (conditions goals : List Str) (start_date review_frequency_days : Nat)
  | addCareGoal (care_plan_id : Nat) (provider_id : Addr)
      (goal_description : Str) (target_value : Option Str)
      (target_date : Nat) (priority : Str)
  | addIntervention (care_plan_id : Nat) (provider_id : Addr)
      (intervention_type description frequency responsible_party : Str)
  | recordGoalProgress (goal_id : Nat) (patient_id : Addr)
      (current_value progress_note : Str) (recorded_date : Nat)
  | markGoalAchieved (goal_id : Nat) (provider_id : Addr)
      (achievement_date : Nat) (outcome_notes : Str)
  | addBarrier (care_plan_id : Nat) (reporter : Addr)
      (barrier_type description : Str) (identified_date : Nat)
  | resolveBarrier (barrier_id : Nat) (provider_id : Addr)
      (resolution : Str) (resolution_date : Nat)
  | scheduleReview (care_plan_id : Nat) (provider_id : Addr)
      (review_date : Nat) (review_type : Str)
  | conductReview (review_id : Nat) (provider_id : Addr)
      (review_notes_hash : Hash) (plan_modifications : List Str)
      (continue_plan : Bool)
  | assignTeamMember (care_plan_id : Nat)
      (coordinating_provider team_member : Addr) (role : Str)
      (responsibilities : List Str)
  | getSummary (care_plan_id : Nat) (requester : Addr)

/-- Successful return value of a command. -/
inductive RetVal where
  | id (n : Nat)
  | unit
  | summary (x : CarePlanSummary)
  deriving DecidableEq, Repr

/-- The principal whose `require_auth` gates the command. -/
def Cmd.principal : Cmd → Addr
  | .createCarePlan _ provider_id _ _ _ _ _ => provider_id
  | .addCareGoal _ provider_id _ _ _ _ => provider_id
  | .addIntervention _ provider_id _ _ _ _ => provider_id
  | .recordGoalProgress _ patient_id _ _ _ => patient_id
  | .markGoalAchieved _ provider_id _ _ => provider_id
  | .addBarrier _ reporter _ _ _ => reporter
  | .resolveBarrier _ provider_id _ _ => provider_id
  | .scheduleReview _ provider_id _ _ => provider_id
  | .conductReview _ provider_id _ _ _ => provider_id
  | .assignTeamMember _ coordinating_provider _ _ _ => coordinating_provider
  | .getSummary _ requester => requester

/-- Dispatch one command to its lib.rs entry point. -/
def exec (a : Addr → Bool) (now : Nat) : Cmd → State →
    Except Error RetVal × State
  | .createCarePlan pat pv pt cs gs sd fr, s =>
    let r := create_care_plan a now pat pv pt cs gs sd fr s
    (r.fst.map RetVal.id, r.snd)
  | .addCareGoal cp pv d tv td pr, s =>
    let r := add_care_goal a now cp pv d tv td pr s
    (r.fst.map RetVal.id, r.snd)
  | .addIntervention cp pv it d f rp, s =>
    let r := add_intervention a now cp pv it d f rp s
    (r.fst.map RetVal.id, r.snd)
  | .recordGoalProgress g pat cv pn rd, s =>
    let r := record_goal_progress a g pat cv pn rd s
    (r.fst.map fun _ => RetVal.unit, r.snd)
  | .markGoalAchieved g pv ad o, s =>
    let r := mark_goal_achieved a g pv ad o s
    (r.fst.map fun _ => RetVal.unit, r.snd)
  | .addBarrier cp rep bt d idd, s =>
    let r := add_barrier a cp rep bt d idd s
    (r.fst.map RetVal.id, r.snd)
  | .resolveBarrier b pv res rd, s =>
    let r := resolve_barrier a b pv res rd s
    (r.fst.map fun _ => RetVal.unit, r.snd)
  | .scheduleReview cp pv rd rt, s =>
    let r := schedule_care_plan_review a cp pv rd rt s
    (r.fst.map RetVal.id, r.snd)
  | .conductReview rv pv h mods cont, s =>
    let r := conduct_care_plan_review a now rv pv h mods cont s
    (r.fst.map fun _ => RetVal.unit, r.snd)
  | .assignTeamMember cp co tm role resp, s =>
    let r := assign_care_team_member a now cp co tm role resp s
    (r.fst.map fun _ => RetVal.unit, r.snd)
  | .getSummary cp rq, s =>
    let r := get_care_plan_summary a cp rq s
    (r.fst.map RetVal.summary, r.snd)

/-- One invocation together with its environment: the authorization gate
for this call and the ledger timestamp at which it runs. -/
structure Call where
  auth : Addr → Bool
  now : Nat
  cmd : Cmd

/-- Execute a single call. -/
def execCall (c : Call) (s : State) : Except Error RetVal × State :=
  exec c.auth c.now c.cmd s

/-- Run a sequence of calls, keeping only the final state. -/
def run : List Call → State → State
  | [], s => s
  | c :: cs, s => run cs (execCall c s).snd

/-- Run a sequence of calls, collecting each call's outcome. -/
def runOuts : List Call → State → List (Except Error RetVal)
  | [], _ => []
  | c :: cs, s => (execCall c s).fst :: runOuts cs (execCall c s).snd

/-! Storage well-formedness: facts that hold in every state reachable from
the empty store.  `…Bound` says no record lives above its counter,
`…Key` says every stored record carries its own key, `…Resolve` says every
id in a plan's relationship index resolves to a record owned by that plan,
and `emptyChildren` says a plan that does not exist has no children. -/

structure Inv (s : State) : Prop where
  planBound : ∀ i, s.carePlanCounter < i → s.carePlans i = none
  goalBound : ∀ i, s.goalCounter < i → s.goalsMap i = none
  intBound : ∀ i, s.interventionCounter < i → s.interventionsMap i = none
  barBound : ∀ i, s.barrierCounter < i → s.barriersMap i = none
  revBound : ∀ i, s.reviewCounter < i → s.reviewsMap i = none
  planKey : ∀ i p, s.carePlans i = some p → p.care_plan_id = i
  goalKey : ∀ i g, s.goalsMap i = some g → g.goal_id = i
  intKey : ∀ i x, s.interventionsMap i = some x → x.intervention_id = i
  barKey : ∀ i b, s.barriersMap i = some b → b.barrier_id = i
  revKey : ∀ i r, s.reviewsMap i = some r → r.review_id = i
  goalResolve : ∀ p i, i ∈ s.planGoals p →
    ∃ g, s.goalsMap i = some g ∧ g.care_plan_id = p
  intResolve : ∀ p i, i ∈ s.planInterventions p →
    ∃ x, s.interventionsMap i = some x ∧ x.care_plan_id = p
  barResolve : ∀ p i, i ∈ s.planBarriers p →
    ∃ b, s.barriersMap i = some b ∧ b.care_plan_id = p
  revResolve : ∀ p i, i ∈ s.planReviews p →
    ∃ r, s.reviewsMap i = some r ∧ r.care_plan_id = p
  emptyChildren : ∀ p, s.carePlans p = none →
    s.planGoals p = [] ∧ s.planInterventions p = [] ∧
    s.planBarriers p = [] ∧ s.planReviews p = [] ∧ s.planCareTeam p = []

/-- `c` is a `create_care_plan` invocation. -/
def Cmd.isPlanCreate : Cmd → Prop
  | .createCarePlan _ _ _ _ _ _ _ => True
  | _ => False

/-- `c` is an `add_care_goal` invocation. -/
def Cmd.isGoalCreate : Cmd → Prop
  | .addCareGoal _ _ _ _ _ _ => True
  | _ => False

/-- `c` is an `add_intervention` invocation. -/
def Cmd.isInterventionCreate : Cmd → Prop
  | .addIntervention _ _ _ _ _ _ => True
  | _ => False

/-- `c` is an `add_barrier` invocation. -/
def Cmd.isBarrierCreate : Cmd → Prop
  | .addBarrier _ _ _ _ _ => True
  | _ => False

/-- `c` is a `schedule_care_plan_review` invocation. -/
def Cmd.isReviewCreate : Cmd → Prop
  | .scheduleReview _ _ _ _ => True
  | _ => False

/-- All goal records reachable from a plan's goal index. -/
def goalRecords (s : State) (p : Nat) : List CareGoal :=
  (s.planGoals p).filterMap s.goalsMap

/-- All intervention records reachable from a plan's intervention index. -/
def interventionRecords (s : State) (p : Nat) : List Intervention :=
  (s.planInterventions p).filterMap s.interventionsMap

/-- All barrier records reachable from a plan's barrier index. -/
def barrierRecords (s : State) (p : Nat) : List Barrier :=
  (s.planBarriers p).filterMap s.barriersMap

/-! Concrete stores used to exercise the theorems on explicit inputs. -/

/-- Authorization gate granting every principal. -/
def authAll : Addr → Bool := fun _ => true

/-- Authorization gate denying every principal. -/
def authNone : Addr → Bool := fun _ => false

def planCall : Call := ⟨authAll, 100, Cmd.createCarePlan 1 2 "chronic" [] [] 1000 7⟩

def goalCall : Call := ⟨authAll, 110, Cmd.addCareGoal 1 2 "walk daily" none 2000 "high"⟩

def goalCallB : Call := ⟨authAll, 111, Cmd.addCareGoal 1 2 "sleep well" none 2100 "low"⟩

def markCall : Call := ⟨authAll, 112, Cmd.markGoalAchieved 1 2 1500 "met"⟩

def barrierCall : Call := ⟨authAll, 113, Cmd.addBarrier 1 3 "transport" "no car" 1200⟩

def barrierCallB : Call := ⟨authAll, 114, Cmd.addBarrier 1 3 "cost" "expensive" 1250⟩

def resolveCall : Call := ⟨authAll, 115, Cmd.resolveBarrier 1 2 "bus pass" 1300⟩

def reviewCall : Call := ⟨authAll, 116, Cmd.scheduleReview 1 2 605800 "routine"⟩

def interventionCall : Call :=
  ⟨authAll, 118, Cmd.addIntervention 1 2 "exercise" "30 min" "daily" "patient"⟩

/-- A store holding one plan (id 1) with one active goal (id 1). -/
def sPG : State := run [planCall, goalCall] State.empty

/-- A store holding one plan (id 1) with one unresolved barrier (id 1). -/
def sPB : State := run [planCall, barrierCall] State.empty

/-- A store holding one plan (id 1) with one unconducted review (id 1). -/
def sPR : State := run [planCall, reviewCall] State.empty

/-- A store with two goals (goal 1 achieved, goal 2 active) and two
barriers (barrier 1 resolved, barrier 2 unresolved) on plan 1. -/
def sC6 : State :=
  run [planCall, goalCall, goalCallB, markCall, barrierCall, barrierCallB,
    resolveCall] State.empty

/-- A discontinued goal record (no command of this contract produces the
`Discontinued` status; it is part of the data model nonetheless). -/
def goalD : CareGoal :=
  { goal_id := 1
    care_plan_id := 1
    description := "quit"
    target_value := none
    target_date := 0
    priority := "low"
    status := GoalStatus.Discontinued
    progress_entries := []
    achievement_date := none
    outcome_notes := none
    created_by := 2
    created_at := 0 }

/-- A well-formed store holding the discontinued goal `goalD` at key 1. -/
def sD : State :=
  { State.empty with
      goalCounter := 1
      goalsMap := fun i => if i = 1 then some goalD else none }

theorem upd_same {α : Type} (m : Nat → Option α) (k : Nat) (v : α) :
    upd m k v k = some v := by simp [upd]

theorem upd_ne {α : Type} (m : Nat → Option α) (k : Nat) (v : α) {i : Nat}
    (h : i ≠ k) : upd m k v i = m i := by simp [upd, h]

theorem appendAt_same {α : Type} (m : Nat → List α) (k : Nat) (v : α) :
    appendAt m k v k = m k ++ [v] := by simp [appendAt]

theorem appendAt_ne {α : Type} (m : Nat → List α) (k : Nat) (v : α) {i : Nat}
    (h : i ≠ k) : appendAt m k v i = m i := by simp [appendAt, h]

theorem run_append (cs ds : List Call) (s : State) :
    run (cs ++ ds) s = run ds (run cs s) := by
  induction cs generalizing s with
  | nil => rfl
  | cons c cs ih => simp [run, ih]

theorem Inv_empty : Inv State.empty := by
  constructor <;> simp [State.empty]

theorem Inv_create_care_plan (a : Addr → Bool) (now : Nat)
    (pat pv : Addr) (pt : Str) (cs gs : List Str) (sd fr : Nat)
    {s : State} (h : Inv s) :
    Inv (create_care_plan a now pat pv pt cs gs sd fr s).snd := by
  by_cases ha : a pv
  · simp only [create_care_plan, ha, if_true, next_care_plan_id,
      save_care_plan, add_patient_plan]
    refine ⟨?_, h.goalBound, h.intBound, h.barBound, h.revBound,
      ?_, h.goalKey, h.intKey, h.barKey, h.revKey,
      h.goalResolve, h.intResolve, h.barResolve, h.revResolve, ?_⟩
    · dsimp only
      intro i hi
      have hne : i ≠ s.carePlanCounter + 1 := by omega
      rw [upd_ne _ _ _ hne]
      exact h.planBound i (by omega)
    · dsimp only
      intro i p hp
      by_cases hi : i = s.carePlanCounter + 1
      · subst hi; rw [upd_same] at hp; cases hp; rfl
      · rw [upd_ne _ _ _ hi] at hp; exact h.planKey i p hp
    · dsimp only
      intro p hp
      by_cases hi : p = s.carePlanCounter + 1
      · subst hi; rw [upd_same] at hp; cases hp
      · rw [upd_ne _ _ _ hi] at hp; exact h.emptyChildren p hp
  · simpa [create_care_plan, ha] using h

/-- A key holding a record lies at or below the counter bounding the map. -/
theorem bound_le {α : Type} {m : Nat → Option α} {c i : Nat}
    (hb : ∀ j, c < j → m j = none) {v : α} (hv : m i = some v) : i ≤ c := by
  by_contra hgt
  rw [hb i (by omega)] at hv
  cases hv

/-- Updating a counter-bounded map at the fresh key `c + 1` preserves any
resolution property of a list of already-resolving ids. -/
theorem resolve_upd_fresh {α : Type} {m : Nat → Option α} {c : Nat}
    (hb : ∀ j, c < j → m j = none) {P : α → Prop} {l : List Nat} (w : α)
    (hres : ∀ i ∈ l, ∃ v, m i = some v ∧ P v) :
    ∀ i ∈ l, ∃ v, upd m (c + 1) w i = some v ∧ P v := by
  intro i hi
  obtain ⟨v, hv, hPv⟩ := hres i hi
  have hle : i ≤ c := bound_le hb hv
  rw [upd_ne _ _ _ (by omega)]
  exact ⟨v, hv, hPv⟩

theorem Inv_add_care_goal (a : Addr → Bool) (now : Nat) (cp : Nat)
    (pv : Addr) (d : Str) (tv : Option Str) (td : Nat) (pr : Str)
    {s : State} (h : Inv s) :
    Inv (add_care_goal a now cp pv d tv td pr s).snd := by
  by_cases ha : a pv
  · cases hl : load_care_plan s cp with
    | none => simpa [add_care_goal, ha, hl] using h
    | some plan =>
      have hl2 : s.carePlans cp = some plan := hl
      simp only [add_care_goal, ha, if_true, hl, next_goal_id, save_goal,
        add_plan_goal]
      refine ⟨h.planBound, ?_, h.intBound, h.barBound, h.revBound,
        h.planKey, ?_, h.intKey, h.barKey, h.revKey,
        ?_, h.intResolve, h.barResolve, h.revResolve, ?_⟩
      · dsimp only
        intro i hi
        rw [upd_ne _ _ _ (by omega)]
        exact h.goalBound i (by omega)
      · dsimp only
        intro i g hg
        by_cases hi : i = s.goalCounter + 1
        · subst hi; rw [upd_same] at hg; cases hg; rfl
        · rw [upd_ne _ _ _ hi] at hg; exact h.goalKey i g hg
      · dsimp only
        intro p i hmem
        by_cases hp : p = cp
        · subst hp
          rw [appendAt_same] at hmem
          rcases List.mem_append.mp hmem with hold | hnew
          · exact resolve_upd_fresh h.goalBound _ (h.goalResolve p) i hold
          · have : i = s.goalCounter + 1 := by simpa using hnew
            subst this
            exact ⟨_, upd_same _ _ _, rfl⟩
        · rw [appendAt_ne _ _ _ hp] at hmem
          exact resolve_upd_fresh h.goalBound _ (h.goalResolve p) i hmem
      · dsimp only
        intro p hp
        have hne : p ≠ cp := by
          intro hEq; subst hEq; rw [hp] at hl2; cases hl2
        obtain ⟨h1, h2, h3, h4, h5⟩ := h.emptyChildren p hp
        exact ⟨by rw [appendAt_ne _ _ _ hne]; exact h1, h2, h3, h4, h5⟩
  · simpa [add_care_goal, ha] using h

theorem Inv_add_intervention (a : Addr → Bool) (now : Nat) (cp : Nat)
    (pv : Addr) (it d f rp : Str) {s : State} (h : Inv s) :
    Inv (add_intervention a now cp pv it d f rp s).snd := by
  by_cases ha : a pv
  · cases hl : load_care_plan s cp with
    | none => simpa [add_intervention, ha, hl] using h
    | some plan =>
      have hl2 : s.carePlans cp = some plan := hl
      simp only [add_intervention, ha, if_true, hl, next_intervention_id,
        save_intervention, add_plan_intervention]
      refine ⟨h.planBound, h.goalBound, ?_, h.barBound, h.revBound,
        h.planKey, h.goalKey, ?_, h.barKey, h.revKey,
        h.goalResolve, ?_, h.barResolve, h.revResolve, ?_⟩
      · dsimp only
        intro i hi
        rw [upd_ne _ _ _ (by omega)]
        exact h.intBound i (by omega)
      · dsimp only
        intro i x hx
        by_cases hi : i = s.interventionCounter + 1
        · subst hi; rw [upd_same] at hx; cases hx; rfl
        · rw [upd_ne _ _ _ hi] at hx; exact h.intKey i x hx
      · dsimp only
        intro p i hmem
        by_cases hp : p = cp
        · subst hp
          rw [appendAt_same] at hmem
          rcases List.mem_append.mp hmem with hold | hnew
          · exact resolve_upd_fresh h.intBound _ (h.intResolve p) i hold
          · have : i = s.interventionCounter + 1 := by simpa using hnew
            subst this
            exact ⟨_, upd_same _ _ _, rfl⟩
        · rw [appendAt_ne _ _ _ hp] at hmem
          exact resolve_upd_fresh h.intBound _ (h.intResolve p) i hmem
      · dsimp only
        intro p hp
        have hne : p ≠ cp := by
          intro hEq; subst hEq; rw [hp] at hl2; cases hl2
        obtain ⟨h1, h2, h3, h4, h5⟩ := h.emptyChildren p hp
        exact ⟨h1, by rw [appendAt_ne _ _ _ hne]; exact h2, h3, h4, h5⟩
  · simpa [add_intervention, ha] using h

theorem Inv_add_barrier (a : Addr → Bool) (cp : Nat) (rep : Addr)
    (bt d : Str) (idd : Nat) {s : State} (h : Inv s) :
    Inv (add_barrier a cp rep bt d idd s).snd := by
  by_cases ha : a rep
  · cases hl : load_care_plan s cp with
    | none => simpa [add_barrier, ha, hl] using h
    | some plan =>
      have hl2 : s.carePlans cp = some plan := hl
      simp only [add_barrier, ha, if_true, hl, next_barrier_id,
        save_barrier, add_plan_barrier]
      refine ⟨h.planBound, h.goalBound, h.intBound, ?_, h.revBound,
        h.planKey, h.goalKey, h.intKey, ?_, h.revKey,
        h.goalResolve, h.intResolve, ?_, h.revResolve, ?_⟩
      · dsimp only
        intro i hi
        rw [upd_ne _ _ _ (by omega)]
        exact h.barBound i (by omega)
      · dsimp only
        intro i b hb
        by_cases hi : i = s.barrierCounter + 1
        · subst hi; rw [upd_same] at hb; cases hb; rfl
        · rw [upd_ne _ _ _ hi] at hb; exact h.barKey i b hb
      · dsimp only
        intro p i hmem
        by_cases hp : p = cp
        · subst hp
          rw [appendAt_same] at hmem
          rcases List.mem_append.mp hmem with hold | hnew
          · exact resolve_upd_fresh h.barBound _ (h.barResolve p) i hold
          · have : i = s.barrierCounter + 1 := by simpa using hnew
            subst this
            exact ⟨_, upd_same _ _ _, rfl⟩
        · rw [appendAt_ne _ _ _ hp] at hmem
          exact resolve_upd_fresh h.barBound _ (h.barResolve p) i hmem
      · dsimp only
        intro p hp
        have hne : p ≠ cp := by
          intro hEq; subst hEq; rw [hp] at hl2; cases hl2
        obtain ⟨h1, h2, h3, h4, h5⟩ := h.emptyChildren p hp
        exact ⟨h1, h2, by rw [appendAt_ne _ _ _ hne]; exact h3, h4, h5⟩
  · simpa [add_barrier, ha] using h

theorem Inv_schedule_review (a : Addr → Bool) (cp : Nat) (pv : Addr)
    (rd : Nat) (rt : Str) {s : State} (h : Inv s) :
    Inv (schedule_care_plan_review a cp pv rd rt s).snd := by
  by_cases ha : a pv
  · cases hl : load_care_plan s cp with
    | none => simpa [schedule_care_plan_review, ha, hl] using h
    | some plan =>
      have hl2 : s.carePlans cp = some plan := hl
      simp only [schedule_care_plan_review, ha, if_true, hl, next_review_id,
        save_review, add_plan_review]
      refine ⟨h.planBound, h.goalBound, h.intBound, h.barBound, ?_,
        h.planKey, h.goalKey, h.intKey, h.barKey, ?_,
        h.goalResolve, h.intResolve, h.barResolve, ?_, ?_⟩
      · dsimp only
        intro i hi
        rw [upd_ne _ _ _ (by omega)]
        exact h.revBound i (by omega)
      · dsimp only
        intro i r hr
        by_cases hi : i = s.reviewCounter + 1
        · subst hi; rw [upd_same] at hr; cases hr; rfl
        · rw [upd_ne _ _ _ hi] at hr; exact h.revKey i r hr
      · dsimp only
        intro p i hmem
        by_cases hp : p = cp
        · subst hp
          rw [appendAt_same] at hmem
          rcases List.mem_append.mp hmem with hold | hnew
          · exact resolve_upd_fresh h.revBound _ (h.revResolve p) i hold
          · have : i = s.reviewCounter + 1 := by simpa using hnew
            subst this
            exact ⟨_, upd_same _ _ _, rfl⟩
        · rw [appendAt_ne _ _ _ hp] at hmem
          exact resolve_upd_fresh h.revBound _ (h.revResolve p) i hmem
      · dsimp only
        intro p hp
        have hne : p ≠ cp := by
          intro hEq; subst hEq; rw [hp] at hl2; cases hl2
        obtain ⟨h1, h2, h3, h4, h5⟩ := h.emptyChildren p hp
        exact ⟨h1, h2, h3, by rw [appendAt_ne _ _ _ hne]; exact h4, h5⟩
  · simpa [schedule_care_plan_review, ha] using h

/-- Saving a modified record back under its own key preserves index
resolution, as long as the modification keeps the owning-plan field. -/
theorem resolve_upd_mut {α : Type} (f : α → Nat) {m : Nat → Option α}
    {g : Nat} {v v2 : α} (hv : m g = some v) (hf : f v2 = f v) {p : Nat}
    {l : List Nat} (hres : ∀ i ∈ l, ∃ w, m i = some w ∧ f w = p) :
    ∀ i ∈ l, ∃ w, upd m g v2 i = some w ∧ f w = p := by
  intro i hi
  obtain ⟨w, hw, hfw⟩ := hres i hi
  by_cases hig : i = g
  · subst hig
    have hwv : w = v := by
      have hsome := hw.symm.trans hv
      injection hsome
    subst hwv
    exact ⟨v2, upd_same _ _ _, by rw [hf]; exact hfw⟩
  · rw [upd_ne _ _ _ hig]
    exact ⟨w, hw, hfw⟩

theorem Inv_record_goal_progress (a : Addr → Bool) (g : Nat) (pat : Addr)
    (cv pn : Str) (rd : Nat) {s : State} (h : Inv s) :
    Inv (record_goal_progress a g pat cv pn rd s).snd := by
  by_cases ha : a pat
  · cases hl : load_goal s g with
    | none => simpa [record_goal_progress, ha, hl] using h
    | some goal =>
      have hl2 : s.goalsMap g = some goal := hl
      have hkey : goal.goal_id = g := h.goalKey g goal hl2
      have hl3 : s.goalsMap goal.goal_id = some goal := by
        rw [hkey]; exact hl2
      by_cases h1 : goal.status = GoalStatus.Achieved
      · simpa [record_goal_progress, ha, hl, h1] using h
      by_cases h2 : goal.status = GoalStatus.Discontinued
      · simpa [record_goal_progress, ha, hl, h1, h2] using h
      simp only [record_goal_progress, ha, if_true, hl, h1, h2, if_false,
        save_goal]
      refine ⟨h.planBound, ?_, h.intBound, h.barBound, h.revBound,
        h.planKey, ?_, h.intKey, h.barKey, h.revKey,
        ?_, h.intResolve, h.barResolve, h.revResolve, h.emptyChildren⟩
      · dsimp only
        intro i hi
        have hle := bound_le h.goalBound hl3
        rw [upd_ne _ _ _ (by omega)]
        exact h.goalBound i hi
      · dsimp only
        intro i g0 hg0
        by_cases hi : i = goal.goal_id
        · subst hi; rw [upd_same] at hg0; cases hg0; rfl
        · rw [upd_ne _ _ _ hi] at hg0; exact h.goalKey i g0 hg0
      · dsimp only
        intro p i hmem
        refine resolve_upd_mut (fun x => x.care_plan_id) hl3 ?_
          (h.goalResolve p) i hmem
        rfl
  · simpa [record_goal_progress, ha] using h

theorem Inv_mark_goal_achieved (a : Addr → Bool) (g : Nat) (pv : Addr)
    (ad : Nat) (o : Str) {s : State} (h : Inv s) :
    Inv (mark_goal_achieved a g pv ad o s).snd := by
  by_cases ha : a pv
  · cases hl : load_goal s g with
    | none => simpa [mark_goal_achieved, ha, hl] using h
    | some goal =>
      have hl2 : s.goalsMap g = some goal := hl
      have hkey : goal.goal_id = g := h.goalKey g goal hl2
      have hl3 : s.goalsMap goal.goal_id = some goal := by
        rw [hkey]; exact hl2
      by_cases h1 : goal.status = GoalStatus.Achieved
      · simpa [mark_goal_achieved, ha, hl, h1] using h
      by_cases h2 : goal.status = GoalStatus.Discontinued
      · simpa [mark_goal_achieved, ha, hl, h1, h2] using h
      simp only [mark_goal_achieved, ha, if_true, hl, h1, h2, if_false,
        save_goal]
      refine ⟨h.planBound, ?_, h.intBound, h.barBound, h.revBound,
        h.planKey, ?_, h.intKey, h.barKey, h.revKey,
        ?_, h.intResolve, h.barResolve, h.revResolve, h.emptyChildren⟩
      · dsimp only
        intro i hi
        have hle := bound_le h.goalBound hl3
        rw [upd_ne _ _ _ (by omega)]
        exact h.goalBound i hi
      · dsimp only
        intro i g0 hg0
        by_cases hi : i = goal.goal_id
        · subst hi; rw [upd_same] at hg0; cases hg0; rfl
        · rw [upd_ne _ _ _ hi] at hg0; exact h.goalKey i g0 hg0
      · dsimp only
        intro p i hmem
        refine resolve_upd_mut (fun x => x.care_plan_id) hl3 ?_
          (h.goalResolve p) i hmem
        rfl
  · simpa [mark_goal_achieved, ha] using h

theorem Inv_resolve_barrier (a : Addr → Bool) (b : Nat) (pv : Addr)
    (res : Str) (rd : Nat) {s : State} (h : Inv s) :
    Inv (resolve_barrier a b pv res rd s).snd := by
  by_cases ha : a pv
  · cases hl : load_barrier s b with
    | none => simpa [resolve_barrier, ha, hl] using h
    | some barrier =>
      have hl2 : s.barriersMap b = some barrier := hl
      have hkey : barrier.barrier_id = b := h.barKey b barrier hl2
      have hl3 : s.barriersMap barrier.barrier_id = some barrier := by
        rw [hkey]; exact hl2
      by_cases h1 : barrier.resolved
      · simpa [resolve_barrier, ha, hl, h1] using h
      simp only [resolve_barrier, ha, if_true, hl, h1, if_false,
        Bool.false_eq_true, save_barrier]
      refine ⟨h.planBound, h.goalBound, h.intBound, ?_, h.revBound,
        h.planKey, h.goalKey, h.intKey, ?_, h.revKey,
        h.goalResolve, h.intResolve, ?_, h.revResolve, h.emptyChildren⟩
      · dsimp only
        intro i hi
        have hle := bound_le h.barBound hl3
        rw [upd_ne _ _ _ (by omega)]
        exact h.barBound i hi
      · dsimp only
        intro i b0 hb0
        by_cases hi : i = barrier.barrier_id
        · subst hi; rw [upd_same] at hb0; cases hb0; rfl
        · rw [upd_ne _ _ _ hi] at hb0; exact h.barKey i b0 hb0
      · dsimp only
        intro p i hmem
        refine resolve_upd_mut (fun x => x.care_plan_id) hl3 ?_
          (h.barResolve p) i hmem
        rfl
  · simpa [resolve_barrier, ha] using h

theorem Inv_conduct_review (a : Addr → Bool) (now : Nat) (rv : Nat)
    (pv : Addr) (nh : Hash) (mods : List Str) (cont : Bool) {s : State}
    (h : Inv s) : Inv (conduct_care_plan_review a now rv pv nh mods cont s).snd := by
  by_cases ha : a pv
  · cases hl : load_review s rv with
    | none => simpa [conduct_care_plan_review, ha, hl] using h
    | some review =>
      have hl2 : s.reviewsMap rv = some review := hl
      have hkey : review.review_id = rv := h.revKey rv review hl2
      have hl3 : s.reviewsMap review.review_id = some review := by
        rw [hkey]; exact hl2
      by_cases h1 : review.conducted
      · simpa [conduct_care_plan_review, ha, hl, h1] using h
      cases hp : load_care_plan s review.care_plan_id with
      | none =>
        have hp2 : s.carePlans review.care_plan_id = none := hp
        simp only [conduct_care_plan_review, ha, if_true, hl, h1, if_false,
          Bool.false_eq_true, hp, save_review]
        refine ⟨h.planBound, h.goalBound, h.intBound, h.barBound, ?_,
          h.planKey, h.goalKey, h.intKey, h.barKey, ?_,
          h.goalResolve, h.intResolve, h.barResolve, ?_, h.emptyChildren⟩
        · dsimp only
          intro i hi
          have hle := bound_le h.revBound hl3
          rw [upd_ne _ _ _ (by omega)]
          exact h.revBound i hi
        · dsimp only
          intro i r0 hr0
          by_cases hi : i = review.review_id
          · subst hi; rw [upd_same] at hr0; cases hr0; rfl
          · rw [upd_ne _ _ _ hi] at hr0; exact h.revKey i r0 hr0
        · dsimp only
          intro p i hmem
          refine resolve_upd_mut (fun x => x.care_plan_id) hl3 ?_
            (h.revResolve p) i hmem
          rfl
      | some plan =>
        have hp2 : s.carePlans review.care_plan_id = some plan := hp
        have hpkey : plan.care_plan_id = review.care_plan_id :=
          h.planKey _ plan hp2
        have hp3 : s.carePlans plan.care_plan_id = some plan := by
          rw [hpkey]; exact hp2
        simp only [conduct_care_plan_review, ha, if_true, hl, h1, if_false,
          Bool.false_eq_true, hp, save_care_plan, save_review]
        refine ⟨?_, h.goalBound, h.intBound, h.barBound, ?_,
          ?_, h.goalKey, h.intKey, h.barKey, ?_,
          h.goalResolve, h.intResolve, h.barResolve, ?_, ?_⟩
        · dsimp only
          intro i hi
          have hle := bound_le h.planBound hp3
          rw [upd_ne _ _ _ (by omega)]
          exact h.planBound i hi
        · dsimp only
          intro i hi
          have hle := bound_le h.revBound hl3
          rw [upd_ne _ _ _ (by omega)]
          exact h.revBound i hi
        · dsimp only
          intro i p0 hp0
          by_cases hi : i = plan.care_plan_id
          · subst hi; rw [upd_same] at hp0; cases hp0; rfl
          · rw [upd_ne _ _ _ hi] at hp0; exact h.planKey i p0 hp0
        · dsimp only
          intro i r0 hr0
          by_cases hi : i = review.review_id
          · subst hi; rw [upd_same] at hr0; cases hr0; rfl
          · rw [upd_ne _ _ _ hi] at hr0; exact h.revKey i r0 hr0
        · dsimp only
          intro p i hmem
          refine resolve_upd_mut (fun x => x.care_plan_id) hl3 ?_
            (h.revResolve p) i hmem
          rfl
        · dsimp only
          intro p hp0
          by_cases hi : p = plan.care_plan_id
          · subst hi; rw [upd_same] at hp0; cases hp0
          · rw [upd_ne _ _ _ hi] at hp0; exact h.emptyChildren p hp0
  · simpa [conduct_care_plan_review, ha] using h

theorem Inv_assign_team_member (a : Addr → Bool) (now : Nat) (cp : Nat)
    (co tm : Addr) (role : Str) (resp : List Str) {s : State} (h : Inv s) :
    Inv (assign_care_team_member a now cp co tm role resp s).snd := by
  by_cases ha : a co
  · cases hl : load_care_plan s cp with
    | none => simpa [assign_care_team_member, ha, hl] using h
    | some plan =>
      have hl2 : s.carePlans cp = some plan := hl
      simp only [assign_care_team_member, ha, if_true, hl, save_care_team,
        load_care_team]
      refine ⟨h.planBound, h.goalBound, h.intBound, h.barBound, h.revBound,
        h.planKey, h.goalKey, h.intKey, h.barKey, h.revKey,
        h.goalResolve, h.intResolve, h.barResolve, h.revResolve, ?_⟩
      dsimp only
      intro p hp
      have hne : p ≠ cp := by
        intro hEq; subst hEq; rw [hp] at hl2; cases hl2
      obtain ⟨h1, h2, h3, h4, h5⟩ := h.emptyChildren p hp
      refine ⟨h1, h2, h3, h4, ?_⟩
      simp only [if_neg hne]
      exact h5
  · simpa [assign_care_team_member, ha] using h

/-- `get_care_plan_summary` is read-only: the post-state is the input
state on every path. -/
theorem get_summary_snd (a : Addr → Bool) (cp : Nat) (rq : Addr)
    (s : State) : (get_care_plan_summary a cp rq s).snd = s := by
  by_cases ha : a rq
  · cases hl : load_care_plan s cp <;> simp [get_care_plan_summary, ha, hl]
  · simp [get_care_plan_summary, ha]

theorem Inv_get_summary (a : Addr → Bool) (cp : Nat) (rq : Addr)
    {s : State} (h : Inv s) : Inv (get_care_plan_summary a cp rq s).snd := by
  rw [get_summary_snd]; exact h

/-- Every command preserves the storage well-formedness invariant. -/
theorem Inv_step (c : Call) {s : State} (h : Inv s) :
    Inv (execCall c s).snd := by
  obtain ⟨a, now, cmd⟩ := c
  cases cmd with
  | createCarePlan pat pv pt cs gs sd fr =>
    exact Inv_create_care_plan a now pat pv pt cs gs sd fr h
  | addCareGoal cp pv d tv td pr =>
    exact Inv_add_care_goal a now cp pv d tv td pr h
  | addIntervention cp pv it d f rp =>
    exact Inv_add_intervention a now cp pv it d f rp h
  | recordGoalProgress g pat cv pn rd =>
    exact Inv_record_goal_progress a g pat cv pn rd h
  | markGoalAchieved g pv ad o =>
    exact Inv_mark_goal_achieved a g pv ad o h
  | addBarrier cp rep bt d idd =>
    exact Inv_add_barrier a cp rep bt d idd h
  | resolveBarrier b pv res rd =>
    exact Inv_resolve_barrier a b pv res rd h
  | scheduleReview cp pv rd rt =>
    exact Inv_schedule_review a cp pv rd rt h
  | conductReview rv pv nh mods cont =>
    exact Inv_conduct_review a now rv pv nh mods cont h
  | assignTeamMember cp co tm role resp =>
    exact Inv_assign_team_member a now cp co tm role resp h
  | getSummary cp rq =>
    exact Inv_get_summary a cp rq h

/-- The invariant holds along any run. -/
theorem Inv_run (cs : List Call) {s : State} (h : Inv s) :
    Inv (run cs s) := by
  induction cs generalizing s with
  | nil => exact h
  | cons c cs ih => exact ih (Inv_step c h)

/-- A goal record in a terminal status (`Achieved` or `Discontinued`) is
never changed again by any command. -/
theorem terminal_goal_frozen_step (c : Call) {s : State} (h : Inv s)
    {g : Nat} {goal : CareGoal} (hg : s.goalsMap g = some goal)
    (hterm : goal.status = GoalStatus.Achieved ∨
      goal.status = GoalStatus.Discontinued) :
    (execCall c s).snd.goalsMap g = some goal := by
  obtain ⟨a, now, cmd⟩ := c
  have hle : g ≤ s.goalCounter := bound_le h.goalBound hg
  cases cmd with
  | createCarePlan pat pv pt cs gs sd fr =>
    by_cases ha : a pv <;>
      simp [execCall, exec, create_care_plan, ha, next_care_plan_id,
        save_care_plan, add_patient_plan, hg]
  | addCareGoal cp pv d tv td pr =>
    by_cases ha : a pv
    · cases hl : load_care_plan s cp with
      | none => simp [execCall, exec, add_care_goal, ha, hl, hg]
      | some plan =>
        simp only [execCall, exec, add_care_goal, ha, if_true, hl,
          next_goal_id, save_goal, add_plan_goal]
        rw [upd_ne _ _ _ (by omega)]
        exact hg
    · simp [execCall, exec, add_care_goal, ha, hg]
  | addIntervention cp pv it d f rp =>
    by_cases ha : a pv
    · cases hl : load_care_plan s cp with
      | none => simp [execCall, exec, add_intervention, ha, hl, hg]
      | some plan =>
        simp [execCall, exec, add_intervention, ha, hl, next_intervention_id,
          save_intervention, add_plan_intervention, hg]
    · simp [execCall, exec, add_intervention, ha, hg]
  | recordGoalProgress g0 pat cv pn rd =>
    by_cases ha : a pat
    · cases hl : load_goal s g0 with
      | none => simp [execCall, exec, record_goal_progress, ha, hl, hg]
      | some goal0 =>
        by_cases hach : goal0.status = GoalStatus.Achieved
        · simp [execCall, exec, record_goal_progress, ha, hl, hach, hg]
        by_cases hdis : goal0.status = GoalStatus.Discontinued
        · simp [execCall, exec, record_goal_progress, ha, hl, hach, hdis, hg]
        have hk : goal0.goal_id = g0 := h.goalKey g0 goal0 hl
        have hne : g ≠ goal0.goal_id := by
          rw [hk]
          intro hEq
          subst hEq
          obtain rfl : goal = goal0 := by
            injection hg.symm.trans hl
          rcases hterm with hx | hx
          · exact hach hx
          · exact hdis hx
        simp only [execCall, exec, record_goal_progress, ha, if_true, hl,
          hach, hdis, if_false, save_goal]
        rw [upd_ne _ _ _ hne]
        exact hg
    · simp [execCall, exec, record_goal_progress, ha, hg]
  | markGoalAchieved g0 pv ad o =>
    by_cases ha : a pv
    · cases hl : load_goal s g0 with
      | none => simp [execCall, exec, mark_goal_achieved, ha, hl, hg]
      | some goal0 =>
        by_cases hach : goal0.status = GoalStatus.Achieved
        · simp [execCall, exec, mark_goal_achieved, ha, hl, hach, hg]
        by_cases hdis : goal0.status = GoalStatus.Discontinued
        · simp [execCall, exec, mark_goal_achieved, ha, hl, hach, hdis, hg]
        have hk : goal0.goal_id = g0 := h.goalKey g0 goal0 hl
        have hne : g ≠ goal0.goal_id := by
          rw [hk]
          intro hEq
          subst hEq
          obtain rfl : goal = goal0 := by
            injection hg.symm.trans hl
          rcases hterm with hx | hx
          · exact hach hx
          · exact hdis hx
        simp only [execCall, exec, mark_goal_achieved, ha, if_true, hl,
          hach, hdis, if_false, save_goal]
        rw [upd_ne _ _ _ hne]
        exact hg
    · simp [execCall, exec, mark_goal_achieved, ha, hg]
  | addBarrier cp rep bt d idd =>
    by_cases ha : a rep
    · cases hl : load_care_plan s cp with
      | none => simp [execCall, exec, add_barrier, ha, hl, hg]
      | some plan =>
        simp [execCall, exec, add_barrier, ha, hl, next_barrier_id,
          save_barrier, add_plan_barrier, hg]
    · simp [execCall, exec, add_barrier, ha, hg]
  | resolveBarrier b pv res rd =>
    by_cases ha : a pv
    · cases hl : load_barrier s b with
      | none => simp [execCall, exec, resolve_barrier, ha, hl, hg]
      | some barrier =>
        by_cases h1 : barrier.resolved <;>
          simp [execCall, exec, resolve_barrier, ha, hl, h1, save_barrier, hg]
    · simp [execCall, exec, resolve_barrier, ha, hg]
  | scheduleReview cp pv rd rt =>
    by_cases ha : a pv
    · cases hl : load_care_plan s cp with
      | none => simp [execCall, exec, schedule_care_plan_review, ha, hl, hg]
      | some plan =>
        simp [execCall, exec, schedule_care_plan_review, ha, hl,
          next_review_id, save_review, add_plan_review, hg]
    · simp [execCall, exec, schedule_care_plan_review, ha, hg]
  | conductReview rv pv nh mods cont =>
    by_cases ha : a pv
    · cases hl : load_review s rv with
      | none => simp [execCall, exec, conduct_care_plan_review, ha, hl, hg]
      | some review =>
        by_cases h1 : review.conducted
        · simp [execCall, exec, conduct_care_plan_review, ha, hl, h1, hg]
        cases hp : load_care_plan s review.care_plan_id <;>
          simp [execCall, exec, conduct_care_plan_review, ha, hl, h1, hp,
            save_care_plan, save_review, hg]
    · simp [execCall, exec, conduct_care_plan_review, ha, hg]
  | assignTeamMember cp co tm role resp =>
    by_cases ha : a co
    · cases hl : load_care_plan s cp with
      | none => simp [execCall, exec, assign_care_team_member, ha, hl, hg]
      | some plan =>
        simp [execCall, exec, assign_care_team_member, ha, hl,
          load_care_team, save_care_team, hg]
    · simp [execCall, exec, assign_care_team_member, ha, hg]
  | getSummary cp rq =>
    have hs : (execCall (Call.mk a now (Cmd.getSummary cp rq)) s).snd =
        (get_care_plan_summary a cp rq s).snd := rfl
    rw [hs, get_summary_snd]
    exact hg

/-- A terminal goal record survives any whole run unchanged. -/
theorem terminal_goal_frozen_run (cs : List Call) {s : State} (h : Inv s)
    {g : Nat} {goal : CareGoal} (hg : s.goalsMap g = some goal)
    (hterm : goal.status = GoalStatus.Achieved ∨
      goal.status = GoalStatus.Discontinued) :
    (run cs s).goalsMap g = some goal := by
  induction cs generalizing s with
  | nil => exact hg
  | cons c cs ih =>
    exact ih (Inv_step c h) (terminal_goal_frozen_step c h hg hterm)

/-- After a successful `mark_goal_achieved`, the stored record at `g` has
status `Achieved`. -/
theorem mark_ok_post (a : Addr → Bool) (g : Nat) (pv : Addr) (ad : Nat)
    (o : Str) {s : State} (h : Inv s)
    (hok : (mark_goal_achieved a g pv ad o s).fst = Except.ok ()) :
    ∃ goal, (mark_goal_achieved a g pv ad o s).snd.goalsMap g = some goal ∧
      goal.status = GoalStatus.Achieved := by
  by_cases ha : a pv
  · cases hl : load_goal s g with
    | none => simp [mark_goal_achieved, ha, hl] at hok
    | some goal =>
      by_cases h1 : goal.status = GoalStatus.Achieved
      · simp [mark_goal_achieved, ha, hl, h1] at hok
      by_cases h2 : goal.status = GoalStatus.Discontinued
      · simp [mark_goal_achieved, ha, hl, h1, h2] at hok
      have hk : goal.goal_id = g := h.goalKey g goal hl
      have hpost : (mark_goal_achieved a g pv ad o s).snd.goalsMap g =
          some { goal with
                   status := GoalStatus.Achieved
                   achievement_date := some ad
                   outcome_notes := some o } := by
        simp only [mark_goal_achieved, ha, if_true, hl, h1, h2, if_false,
          save_goal]
        rw [hk]
        exact upd_same _ _ _
      exact ⟨_, hpost, rfl⟩
  · simp [mark_goal_achieved, ha] at hok

theorem mark_rejects_achieved (a : Addr → Bool) (g : Nat) (pv : Addr)
    (ad : Nat) (o : Str) {s : State} {goal : CareGoal}
    (hg : s.goalsMap g = some goal)
    (hach : goal.status = GoalStatus.Achieved) (ha : a pv = true) :
    mark_goal_achieved a g pv ad o s =
      (Except.error Error.GoalAlreadyAchieved, s) := by
  simp [mark_goal_achieved, ha, load_goal, hg, hach]

theorem mark_rejects_discontinued (a : Addr → Bool) (g : Nat) (pv : Addr)
    (ad : Nat) (o : Str) {s : State} {goal : CareGoal}
    (hg : s.goalsMap g = some goal)
    (hdis : goal.status = GoalStatus.Discontinued) (ha : a pv = true) :
    mark_goal_achieved a g pv ad o s =
      (Except.error Error.GoalDiscontinued, s) := by
  simp [mark_goal_achieved, ha, load_goal, hg, hdis]

theorem record_rejects_achieved (a : Addr → Bool) (g : Nat) (pat : Addr)
    (cv pn : Str) (rd : Nat) {s : State} {goal : CareGoal}
    (hg : s.goalsMap g = some goal)
    (hach : goal.status = GoalStatus.Achieved) (ha : a pat = true) :
    record_goal_progress a g pat cv pn rd s =
      (Except.error Error.GoalAlreadyAchieved, s) := by
  simp [record_goal_progress, ha, load_goal, hg, hach]

theorem record_rejects_discontinued (a : Addr → Bool) (g : Nat) (pat : Addr)
    (cv pn : Str) (rd : Nat) {s : State} {goal : CareGoal}
    (hg : s.goalsMap g = some goal)
    (hdis : goal.status = GoalStatus.Discontinued) (ha : a pat = true) :
    record_goal_progress a g pat cv pn rd s =
      (Except.error Error.GoalDiscontinued, s) := by
  simp [record_goal_progress, ha, load_goal, hg, hdis]

/-- C1: once `mark_goal_achieved(g)` has succeeded (or the stored goal at
`g` has status `Discontinued`), then after any further sequence of calls,
every `mark_goal_achieved(g)` and every `record_goal_progress(g, …)` by
an authorized principal fails with `GoalAlreadyAchieved`
(resp. `GoalDiscontinued`), and the failed call leaves the whole store —
in particular the stored goal record — unchanged. -/
theorem C1_terminal_goal_rejects (s : State) (hInv : Inv s) (g : Nat)
    (a : Addr → Bool) (pv : Addr) (ad : Nat) (o : Str) (cs : List Call) :
    ((mark_goal_achieved a g pv ad o s).fst = Except.ok () →
      ∃ goal,
        (run cs (mark_goal_achieved a g pv ad o s).snd).goalsMap g =
          some goal ∧
        goal.status = GoalStatus.Achieved ∧
        (∀ a2 pv2 ad2 o2, a2 pv2 = true →
          mark_goal_achieved a2 g pv2 ad2 o2
              (run cs (mark_goal_achieved a g pv ad o s).snd) =
            (Except.error Error.GoalAlreadyAchieved,
              run cs (mark_goal_achieved a g pv ad o s).snd)) ∧
        (∀ a3 pat cv pn rd, a3 pat = true →
          record_goal_progress a3 g pat cv pn rd
              (run cs (mark_goal_achieved a g pv ad o s).snd) =
            (Except.error Error.GoalAlreadyAchieved,
              run cs (mark_goal_achieved a g pv ad o s).snd))) ∧
    (∀ goal, s.goalsMap g = some goal →
      goal.status = GoalStatus.Discontinued →
      (run cs s).goalsMap g = some goal ∧
      (∀ a2 pv2 ad2 o2, a2 pv2 = true →
        mark_goal_achieved a2 g pv2 ad2 o2 (run cs s) =
          (Except.error Error.GoalDiscontinued, run cs s)) ∧
      (∀ a3 pat cv pn rd, a3 pat = true →
        record_goal_progress a3 g pat cv pn rd (run cs s) =
          (Except.error Error.GoalDiscontinued, run cs s))) := by
  constructor
  · intro hok
    obtain ⟨goal, hpost, hach⟩ := mark_ok_post a g pv ad o hInv hok
    have hInv1 : Inv (mark_goal_achieved a g pv ad o s).snd :=
      Inv_mark_goal_achieved a g pv ad o hInv
    have hfrozen : (run cs (mark_goal_achieved a g pv ad o s).snd).goalsMap g
        = some goal :=
      terminal_goal_frozen_run cs hInv1 hpost (Or.inl hach)
    refine ⟨goal, hfrozen, hach, ?_, ?_⟩
    · intro a2 pv2 ad2 o2 ha2
      exact mark_rejects_achieved a2 g pv2 ad2 o2 hfrozen hach ha2
    · intro a3 pat cv pn rd ha3
      exact record_rejects_achieved a3 g pat cv pn rd hfrozen hach ha3
  · intro goal hg hdis
    have hfrozen : (run cs s).goalsMap g = some goal :=
      terminal_goal_frozen_run cs hInv hg (Or.inr hdis)
    refine ⟨hfrozen, ?_, ?_⟩
    · intro a2 pv2 ad2 o2 ha2
      exact mark_rejects_discontinued a2 g pv2 ad2 o2 hfrozen hdis ha2
    · intro a3 pat cv pn rd ha3
      exact record_rejects_discontinued a3 g pat cv pn rd hfrozen hdis ha3

/-- The hand-built store `sD` satisfies the storage invariant. -/
theorem Inv_sD : Inv sD := by
  constructor
  · intro i hi; rfl
  · intro i hi
    have hi2 : 1 < i := hi
    have hne : i ≠ 1 := by omega
    simp [sD, State.empty, hne]
  · intro i hi; rfl
  · intro i hi; rfl
  · intro i hi; rfl
  · intro i p hp; exact Option.noConfusion hp
  · intro i g0 hg0
    by_cases hi : i = 1
    · subst hi
      simp [sD, State.empty] at hg0
      rw [← hg0]
      rfl
    · simp [sD, State.empty, hi] at hg0
  · intro i x hx; exact Option.noConfusion hx
  · intro i b hb; exact Option.noConfusion hb
  · intro i r hr; exact Option.noConfusion hr
  · intro p i hmem; exact absurd hmem (List.not_mem_nil i)
  · intro p i hmem; exact absurd hmem (List.not_mem_nil i)
  · intro p i hmem; exact absurd hmem (List.not_mem_nil i)
  · intro p i hmem; exact absurd hmem (List.not_mem_nil i)
  · intro p hp; exact ⟨rfl, rfl, rfl, rfl, rfl⟩

/-- Witness for C1: on the concrete store `sPG`, marking goal 1 achieved
succeeds and the Achieved branch applies; on the concrete store `sD`,
goal 1 is discontinued and the Discontinued branch applies. -/
theorem C1_terminal_goal_rejects_witness :
    (∃ goal,
      (run [] (mark_goal_achieved authAll 1 2 1500 "met" sPG).snd).goalsMap 1
        = some goal ∧ goal.status = GoalStatus.Achieved) ∧
    mark_goal_achieved authAll 1 2 1500 "met" (run [] sD) =
      (Except.error Error.GoalDiscontinued, run [] sD) ∧
    record_goal_progress authAll 1 1 "5km" "ok" 1400 (run [] sD) =
      (Except.error Error.GoalDiscontinued, run [] sD) := by
  refine ⟨?_, ?_, ?_⟩
  · obtain ⟨goal, h1, h2, _, _⟩ :=
      (C1_terminal_goal_rejects sPG (Inv_run [planCall, goalCall] Inv_empty)
        1 authAll 2 1500 "met" []).1 (by rfl)
    exact ⟨goal, h1, h2⟩
  · exact ((C1_terminal_goal_rejects sD Inv_sD 1 authAll 2 1500 "met"
      []).2 goalD rfl rfl).2.1 authAll 2 1500 "met" rfl
  · exact ((C1_terminal_goal_rejects sD Inv_sD 1 authAll 2 1500 "met"
      []).2 goalD rfl rfl).2.2 authAll 1 "5km" "ok" 1400 rfl

/-- Every command either leaves the store untouched or returns a success
value: there is no path that mutates state and then fails. -/
theorem step_cases (c : Call) (s : State) :
    (execCall c s).snd = s ∨ ∃ v, (execCall c s).fst = Except.ok v := by
  obtain ⟨a, now, cmd⟩ := c
  cases cmd with
  | createCarePlan pat pv pt cs gs sd fr =>
    by_cases ha : a pv
    · right; simp [execCall, exec, Except.map, create_care_plan, ha]
    · left; simp [execCall, exec, create_care_plan, ha]
  | addCareGoal cp pv d tv td pr =>
    by_cases ha : a pv
    · cases hl : load_care_plan s cp with
      | none => left; simp [execCall, exec, add_care_goal, ha, hl]
      | some plan => right; simp [execCall, exec, Except.map, add_care_goal, ha, hl]
    · left; simp [execCall, exec, add_care_goal, ha]
  | addIntervention cp pv it d f rp =>
    by_cases ha : a pv
    · cases hl : load_care_plan s cp with
      | none => left; simp [execCall, exec, add_intervention, ha, hl]
      | some plan => right; simp [execCall, exec, Except.map, add_intervention, ha, hl]
    · left; simp [execCall, exec, add_intervention, ha]
  | recordGoalProgress g pat cv pn rd =>
    by_cases ha : a pat
    · cases hl : load_goal s g with
      | none => left; simp [execCall, exec, record_goal_progress, ha, hl]
      | some goal =>
        by_cases h1 : goal.status = GoalStatus.Achieved
        · left; simp [execCall, exec, record_goal_progress, ha, hl, h1]
        by_cases h2 : goal.status = GoalStatus.Discontinued
        · left; simp [execCall, exec, record_goal_progress, ha, hl, h1, h2]
        right; simp [execCall, exec, Except.map, record_goal_progress, ha, hl, h1, h2]
    · left; simp [execCall, exec, record_goal_progress, ha]
  | markGoalAchieved g pv ad o =>
    by_cases ha : a pv
    · cases hl : load_goal s g with
      | none => left; simp [execCall, exec, mark_goal_achieved, ha, hl]
      | some goal =>
        by_cases h1 : goal.status = GoalStatus.Achieved
        · left; simp [execCall, exec, mark_goal_achieved, ha, hl, h1]
        by_cases h2 : goal.status = GoalStatus.Discontinued
        · left; simp [execCall, exec, mark_goal_achieved, ha, hl, h1, h2]
        right; simp [execCall, exec, Except.map, mark_goal_achieved, ha, hl, h1, h2]
    · left; simp [execCall, exec, mark_goal_achieved, ha]
  | addBarrier cp rep bt d idd =>
    by_cases ha : a rep
    · cases hl : load_care_plan s cp with
      | none => left; simp [execCall, exec, add_barrier, ha, hl]
      | some plan => right; simp [execCall, exec, Except.map, add_barrier, ha, hl]
    · left; simp [execCall, exec, add_barrier, ha]
  | resolveBarrier b pv res rd =>
    by_cases ha : a pv
    · cases hl : load_barrier s b with
      | none => left; simp [execCall, exec, resolve_barrier, ha, hl]
      | some barrier =>
        by_cases h1 : barrier.resolved
        · left; simp [execCall, exec, resolve_barrier, ha, hl, h1]
        · right; simp [execCall, exec, Except.map, resolve_barrier, ha, hl, h1]
    · left; simp [execCall, exec, resolve_barrier, ha]
  | scheduleReview cp pv rd rt =>
    by_cases ha : a pv
    · cases hl : load_care_plan s cp with
      | none => left; simp [execCall, exec, schedule_care_plan_review, ha, hl]
      | some plan =>
        right; simp [execCall, exec, Except.map, schedule_care_plan_review, ha, hl]
    · left; simp [execCall, exec, schedule_care_plan_review, ha]
  | conductReview rv pv nh mods cont =>
    by_cases ha : a pv
    · cases hl : load_review s rv with
      | none => left; simp [execCall, exec, conduct_care_plan_review, ha, hl]
      | some review =>
        by_cases h1 : review.conducted
        · left; simp [execCall, exec, conduct_care_plan_review, ha, hl, h1]
        · right; simp [execCall, exec, Except.map, conduct_care_plan_review, ha, hl, h1]
    · left; simp [execCall, exec, conduct_care_plan_review, ha]
  | assignTeamMember cp co tm role resp =>
    by_cases ha : a co
    · cases hl : load_care_plan s cp with
      | none => left; simp [execCall, exec, assign_care_team_member, ha, hl]
      | some plan =>
        right; simp [execCall, exec, Except.map, assign_care_team_member, ha, hl]
    · left; simp [execCall, exec, assign_care_team_member, ha]
  | getSummary cp rq =>
    left
    exact get_summary_snd a cp rq s

/-- A command that fails leaves the whole store — counters, records and
indices — unchanged. -/
theorem step_error_frame (c : Call) (s : State) (e : Error)
    (h : (execCall c s).fst = Except.error e) : (execCall c s).snd = s := by
  rcases step_cases c s with hs | ⟨v, hv⟩
  · exact hs
  · rw [hv] at h; cases h

/-- C4: for every command, when the required principal's authorization
fails, the command aborts with `Unauthorized` and the store is completely
untouched: no counter advances, no record is saved, no index grows. -/
theorem C4_unauthorized_rejected (a : Addr → Bool) (now : Nat) (cmd : Cmd)
    (s : State) (hauth : a cmd.principal = false) :
    exec a now cmd s = (Except.error Error.Unauthorized, s) := by
  cases cmd <;>
    simp only [Cmd.principal] at hauth <;>
    simp [exec, create_care_plan, add_care_goal, add_intervention,
      record_goal_progress, mark_goal_achieved, add_barrier, resolve_barrier,
      schedule_care_plan_review, conduct_care_plan_review,
      assign_care_team_member, get_care_plan_summary, Except.map, hauth]

/-- Witness for C4: an unauthorized `create_care_plan` on the empty store
is rejected with `Unauthorized` and the store stays empty. -/
theorem C4_unauthorized_rejected_witness :
    exec authNone 0 (Cmd.createCarePlan 1 2 "chronic" [] [] 1000 7)
      State.empty = (Except.error Error.Unauthorized, State.empty) :=
  C4_unauthorized_rejected authNone 0
    (Cmd.createCarePlan 1 2 "chronic" [] [] 1000 7) State.empty rfl

/-- A block of successful `create_care_plan` calls returns consecutive
ids starting right above the incoming counter. -/
theorem planCreates_ids (cs : List Call) (s : State)
    (hall : ∀ c ∈ cs, c.cmd.isPlanCreate)
    (hok : ∀ o ∈ runOuts cs s, ∃ v, o = Except.ok v) :
    runOuts cs s = (List.range cs.length).map
      (fun i => Except.ok (RetVal.id (s.carePlanCounter + i + 1))) := by
  induction cs generalizing s with
  | nil => rfl
  | cons c cs ih =>
    obtain ⟨ca, cn, ccmd⟩ := c
    have hpc := hall _ (List.mem_cons_self _ _)
    cases ccmd <;> try exact hpc.elim
    rename_i pat pv pt conds goals sd fr
    by_cases hauth : ca pv
    · have hfst : (execCall ⟨ca, cn,
          Cmd.createCarePlan pat pv pt conds goals sd fr⟩ s).fst
          = Except.ok (RetVal.id (s.carePlanCounter + 1)) := by
        simp [execCall, exec, create_care_plan, hauth, next_care_plan_id,
          Except.map]
      have htail := ih (execCall ⟨ca, cn,
          Cmd.createCarePlan pat pv pt conds goals sd fr⟩ s).snd
        (fun c hc => hall c (List.mem_cons_of_mem _ hc))
        (fun o ho => hok o (List.mem_cons_of_mem _ ho))
      have hcpc : (execCall ⟨ca, cn,
          Cmd.createCarePlan pat pv pt conds goals sd fr⟩ s).snd.carePlanCounter
          = s.carePlanCounter + 1 := by
        simp [execCall, exec, create_care_plan, hauth, next_care_plan_id,
          save_care_plan, add_patient_plan]
      simp only [runOuts, hfst, htail, hcpc, List.length_cons,
        List.range_succ_eq_map, List.map_cons, List.map_map]
      congr 1
      have harith : ∀ i, s.carePlanCounter + 1 + i + 1 =
          s.carePlanCounter + (i + 1) + 1 := fun i => by omega
      simp [Function.comp, harith, Nat.succ_eq_add_one]
    · exfalso
      obtain ⟨v, hv⟩ := hok _ (List.mem_cons_self _ _)
      simp [execCall, exec, create_care_plan, hauth, Except.map] at hv

/-- A block of successful `add_care_goal` calls returns consecutive ids
starting right above the incoming goal counter. -/
theorem goalCreates_ids (cs : List Call) (s : State)
    (hall : ∀ c ∈ cs, c.cmd.isGoalCreate)
    (hok : ∀ o ∈ runOuts cs s, ∃ v, o = Except.ok v) :
    runOuts cs s = (List.range cs.length).map
      (fun i => Except.ok (RetVal.id (s.goalCounter + i + 1))) := by
  induction cs generalizing s with
  | nil => rfl
  | cons c cs ih =>
    obtain ⟨ca, cn, ccmd⟩ := c
    have hpc := hall _ (List.mem_cons_self _ _)
    cases ccmd <;> try exact hpc.elim
    rename_i cp pv d tv td pr
    by_cases hauth : ca pv
    · cases hl : load_care_plan s cp with
      | none =>
        exfalso
        obtain ⟨v, hv⟩ := hok _ (List.mem_cons_self _ _)
        simp [execCall, exec, add_care_goal, hauth, hl, Except.map] at hv
      | some plan =>
        have hfst : (execCall ⟨ca, cn, Cmd.addCareGoal cp pv d tv td pr⟩
            s).fst = Except.ok (RetVal.id (s.goalCounter + 1)) := by
          simp [execCall, exec, add_care_goal, hauth, hl, next_goal_id,
            Except.map]
        have htail := ih (execCall ⟨ca, cn,
            Cmd.addCareGoal cp pv d tv td pr⟩ s).snd
          (fun c hc => hall c (List.mem_cons_of_mem _ hc))
          (fun o ho => hok o (List.mem_cons_of_mem _ ho))
        have hcnt : (execCall ⟨ca, cn, Cmd.addCareGoal cp pv d tv td pr⟩
            s).snd.goalCounter = s.goalCounter + 1 := by
          simp [execCall, exec, add_care_goal, hauth, hl, next_goal_id,
            save_goal, add_plan_goal]
        simp only [runOuts, hfst, htail, hcnt, List.length_cons,
          List.range_succ_eq_map, List.map_cons, List.map_map]
        congr 1
        have harith : ∀ i, s.goalCounter + 1 + i + 1 =
            s.goalCounter + (i + 1) + 1 := fun i => by omega
        simp [Function.comp, harith, Nat.succ_eq_add_one]
    · exfalso
      obtain ⟨v, hv⟩ := hok _ (List.mem_cons_self _ _)
      simp [execCall, exec, add_care_goal, hauth, Except.map] at hv

/-- A block of successful `add_intervention` calls returns consecutive ids
starting right above the incoming intervention counter. -/
theorem interventionCreates_ids (cs : List Call) (s : State)
    (hall : ∀ c ∈ cs, c.cmd.isInterventionCreate)
    (hok : ∀ o ∈ runOuts cs s, ∃ v, o = Except.ok v) :
    runOuts cs s = (List.range cs.length).map
      (fun i => Except.ok (RetVal.id (s.interventionCounter + i + 1))) := by
  induction cs generalizing s with
  | nil => rfl
  | cons c cs ih =>
    obtain ⟨ca, cn, ccmd⟩ := c
    have hpc := hall _ (List.mem_cons_self _ _)
    cases ccmd <;> try exact hpc.elim
    rename_i cp pv it d f rp
    by_cases hauth : ca pv
    · cases hl : load_care_plan s cp with
      | none =>
        exfalso
        obtain ⟨v, hv⟩ := hok _ (List.mem_cons_self _ _)
        simp [execCall, exec, add_intervention, hauth, hl, Except.map] at hv
      | some plan =>
        have hfst : (execCall ⟨ca, cn, Cmd.addIntervention cp pv it d f rp⟩
            s).fst = Except.ok (RetVal.id (s.interventionCounter + 1)) := by
          simp [execCall, exec, add_intervention, hauth, hl,
            next_intervention_id, Except.map]
        have htail := ih (execCall ⟨ca, cn,
            Cmd.addIntervention cp pv it d f rp⟩ s).snd
          (fun c hc => hall c (List.mem_cons_of_mem _ hc))
          (fun o ho => hok o (List.mem_cons_of_mem _ ho))
        have hcnt : (execCall ⟨ca, cn, Cmd.addIntervention cp pv it d f rp⟩
            s).snd.interventionCounter = s.interventionCounter + 1 := by
          simp [execCall, exec, add_intervention, hauth, hl,
            next_intervention_id, save_intervention, add_plan_intervention]
        simp only [runOuts, hfst, htail, hcnt, List.length_cons,
          List.range_succ_eq_map, List.map_cons, List.map_map]
        congr 1
        have harith : ∀ i, s.interventionCounter + 1 + i + 1 =
            s.interventionCounter + (i + 1) + 1 := fun i => by omega
        simp [Function.comp, harith, Nat.succ_eq_add_one]
    · exfalso
      obtain ⟨v, hv⟩ := hok _ (List.mem_cons_self _ _)
      simp [execCall, exec, add_intervention, hauth, Except.map] at hv

/-- A block of successful `add_barrier` calls returns consecutive ids
starting right above the incoming barrier counter. -/
theorem barrierCreates_ids (cs : List Call) (s : State)
    (hall : ∀ c ∈ cs, c.cmd.isBarrierCreate)
    (hok : ∀ o ∈ runOuts cs s, ∃ v, o = Except.ok v) :
    runOuts cs s = (List.range cs.length).map
      (fun i => Except.ok (RetVal.id (s.barrierCounter + i + 1))) := by
  induction cs generalizing s with
  | nil => rfl
  | cons c cs ih =>
    obtain ⟨ca, cn, ccmd⟩ := c
    have hpc := hall _ (List.mem_cons_self _ _)
    cases ccmd <;> try exact hpc.elim
    rename_i cp rep bt d idd
    by_cases hauth : ca rep
    · cases hl : load_care_plan s cp with
      | none =>
        exfalso
        obtain ⟨v, hv⟩ := hok _ (List.mem_cons_self _ _)
        simp [execCall, exec, add_barrier, hauth, hl, Except.map] at hv
      | some plan =>
        have hfst : (execCall ⟨ca, cn, Cmd.addBarrier cp rep bt d idd⟩
            s).fst = Except.ok (RetVal.id (s.barrierCounter + 1)) := by
          simp [execCall, exec, add_barrier, hauth, hl, next_barrier_id,
            Except.map]
        have htail := ih (execCall ⟨ca, cn,
            Cmd.addBarrier cp rep bt d idd⟩ s).snd
          (fun c hc => hall c (List.mem_cons_of_mem _ hc))
          (fun o ho => hok o (List.mem_cons_of_mem _ ho))
        have hcnt : (execCall ⟨ca, cn, Cmd.addBarrier cp rep bt d idd⟩
            s).snd.barrierCounter = s.barrierCounter + 1 := by
          simp [execCall, exec, add_barrier, hauth, hl, next_barrier_id,
            save_barrier, add_plan_barrier]
        simp only [runOuts, hfst, htail, hcnt, List.length_cons,
          List.range_succ_eq_map, List.map_cons, List.map_map]
        congr 1
        have harith : ∀ i, s.barrierCounter + 1 + i + 1 =
            s.barrierCounter + (i + 1) + 1 := fun i => by omega
        simp [Function.comp, harith, Nat.succ_eq_add_one]
    · exfalso
      obtain ⟨v, hv⟩ := hok _ (List.mem_cons_self _ _)
      simp [execCall, exec, add_barrier, hauth, Except.map] at hv

/-- A block of successful `schedule_care_plan_review` calls returns
consecutive ids starting right above the incoming review counter. -/
theorem reviewCreates_ids (cs : List Call) (s : State)
    (hall : ∀ c ∈ cs, c.cmd.isReviewCreate)
    (hok : ∀ o ∈ runOuts cs s, ∃ v, o = Except.ok v) :
    runOuts cs s = (List.range cs.length).map
      (fun i => Except.ok (RetVal.id (s.reviewCounter + i + 1))) := by
  induction cs generalizing s with
  | nil => rfl
  | cons c cs ih =>
    obtain ⟨ca, cn, ccmd⟩ := c
    have hpc := hall _ (List.mem_cons_self _ _)
    cases ccmd <;> try exact hpc.elim
    rename_i cp pv rd rt
    by_cases hauth : ca pv
    · cases hl : load_care_plan s cp with
      | none =>
        exfalso
        obtain ⟨v, hv⟩ := hok _ (List.mem_cons_self _ _)
        simp [execCall, exec, schedule_care_plan_review, hauth, hl,
          Except.map] at hv
      | some plan =>
        have hfst : (execCall ⟨ca, cn, Cmd.scheduleReview cp pv rd rt⟩
            s).fst = Except.ok (RetVal.id (s.reviewCounter + 1)) := by
          simp [execCall, exec, schedule_care_plan_review, hauth, hl,
            next_review_id, Except.map]
        have htail := ih (execCall ⟨ca, cn,
            Cmd.scheduleReview cp pv rd rt⟩ s).snd
          (fun c hc => hall c (List.mem_cons_of_mem _ hc))
          (fun o ho => hok o (List.mem_cons_of_mem _ ho))
        have hcnt : (execCall ⟨ca, cn, Cmd.scheduleReview cp pv rd rt⟩
            s).snd.reviewCounter = s.reviewCounter + 1 := by
          simp [execCall, exec, schedule_care_plan_review, hauth, hl,
            next_review_id, save_review, add_plan_review]
        simp only [runOuts, hfst, htail, hcnt, List.length_cons,
          List.range_succ_eq_map, List.map_cons, List.map_map]
        congr 1
        have harith : ∀ i, s.reviewCounter + 1 + i + 1 =
            s.reviewCounter + (i + 1) + 1 := fun i => by omega
        simp [Function.comp, harith, Nat.succ_eq_add_one]
    · exfalso
      obtain ⟨v, hv⟩ := hok _ (List.mem_cons_self _ _)
      simp [execCall, exec, schedule_care_plan_review, hauth, Except.map]
        at hv

/-- C3: for each of the five allocatable entity types, starting from a
store whose counter for that type is 0 (as in the empty store), any
sequence of successful creation commands of that type returns the ids
1, 2, …, N in order, with no gaps and no repeats; and any command that
fails leaves the store — in particular every counter — unchanged, so a
failed operation never advances an id. -/
theorem C3_id_allocation (s : State) (cs : List Call) :
    (s.carePlanCounter = 0 → (∀ c ∈ cs, c.cmd.isPlanCreate) →
      (∀ o ∈ runOuts cs s, ∃ v, o = Except.ok v) →
      runOuts cs s = (List.range cs.length).map
        (fun i => Except.ok (RetVal.id (i + 1)))) ∧
    (s.goalCounter = 0 → (∀ c ∈ cs, c.cmd.isGoalCreate) →
      (∀ o ∈ runOuts cs s, ∃ v, o = Except.ok v) →
      runOuts cs s = (List.range cs.length).map
        (fun i => Except.ok (RetVal.id (i + 1)))) ∧
    (s.interventionCounter = 0 → (∀ c ∈ cs, c.cmd.isInterventionCreate) →
      (∀ o ∈ runOuts cs s, ∃ v, o = Except.ok v) →
      runOuts cs s = (List.range cs.length).map
        (fun i => Except.ok (RetVal.id (i + 1)))) ∧
    (s.barrierCounter = 0 → (∀ c ∈ cs, c.cmd.isBarrierCreate) →
      (∀ o ∈ runOuts cs s, ∃ v, o = Except.ok v) →
      runOuts cs s = (List.range cs.length).map
        (fun i => Except.ok (RetVal.id (i + 1)))) ∧
    (s.reviewCounter = 0 → (∀ c ∈ cs, c.cmd.isReviewCreate) →
      (∀ o ∈ runOuts cs s, ∃ v, o = Except.ok v) →
      runOuts cs s = (List.range cs.length).map
        (fun i => Except.ok (RetVal.id (i + 1)))) ∧
    (∀ c e, (execCall c s).fst = Except.error e → (execCall c s).snd = s) := by
  refine ⟨?_, ?_, ?_, ?_, ?_, ?_⟩
  · intro hz hall hok
    have h := planCreates_ids cs s hall hok
    simpa only [hz, Nat.zero_add] using h
  · intro hz hall hok
    have h := goalCreates_ids cs s hall hok
    simpa only [hz, Nat.zero_add] using h
  · intro hz hall hok
    have h := interventionCreates_ids cs s hall hok
    simpa only [hz, Nat.zero_add] using h
  · intro hz hall hok
    have h := barrierCreates_ids cs s hall hok
    simpa only [hz, Nat.zero_add] using h
  · intro hz hall hok
    have h := reviewCreates_ids cs s hall hok
    simpa only [hz, Nat.zero_add] using h
  · intro c e he
    exact step_error_frame c s e he

/-- Witness for C3: two plan creations from the empty store return ids
1 and 2; goal/intervention/barrier/review creations on a store holding
plan 1 likewise count up from 1; a rejected call leaves the store
unchanged. -/
theorem C3_id_allocation_witness :
    runOuts [planCall, planCall] State.empty =
      [Except.ok (RetVal.id 1), Except.ok (RetVal.id 2)] ∧
    runOuts [goalCall, goalCallB] (run [planCall] State.empty) =
      [Except.ok (RetVal.id 1), Except.ok (RetVal.id 2)] ∧
    runOuts [interventionCall] (run [planCall] State.empty) =
      [Except.ok (RetVal.id 1)] ∧
    runOuts [barrierCall, barrierCallB] (run [planCall] State.empty) =
      [Except.ok (RetVal.id 1), Except.ok (RetVal.id 2)] ∧
    runOuts [reviewCall] (run [planCall] State.empty) =
      [Except.ok (RetVal.id 1)] ∧
    (execCall ⟨authNone, 0, Cmd.createCarePlan 1 2 "chronic" [] [] 1000 7⟩
      State.empty).snd = State.empty := by
  refine ⟨?_, ?_, ?_, ?_, ?_, ?_⟩
  · exact (C3_id_allocation State.empty [planCall, planCall]).1 rfl
      (by simp [planCall, Cmd.isPlanCreate])
      (by
        intro o ho
        have hruns : runOuts [planCall, planCall] State.empty =
            [Except.ok (RetVal.id 1), Except.ok (RetVal.id 2)] := rfl
        rw [hruns] at ho
        simp only [List.mem_cons, List.not_mem_nil, or_false] at ho
        rcases ho with rfl | rfl <;> exact ⟨_, rfl⟩)
  · exact (C3_id_allocation (run [planCall] State.empty)
      [goalCall, goalCallB]).2.1 rfl
      (by simp [goalCall, goalCallB, Cmd.isGoalCreate])
      (by
        intro o ho
        have hruns : runOuts [goalCall, goalCallB]
            (run [planCall] State.empty) =
            [Except.ok (RetVal.id 1), Except.ok (RetVal.id 2)] := rfl
        rw [hruns] at ho
        simp only [List.mem_cons, List.not_mem_nil, or_false] at ho
        rcases ho with rfl | rfl <;> exact ⟨_, rfl⟩)
  · exact (C3_id_allocation (run [planCall] State.empty)
      [interventionCall]).2.2.1 rfl
      (by simp [interventionCall, Cmd.isInterventionCreate])
      (by
        intro o ho
        have hruns : runOuts [interventionCall]
            (run [planCall] State.empty) = [Except.ok (RetVal.id 1)] := rfl
        rw [hruns] at ho
        simp only [List.mem_cons, List.not_mem_nil, or_false] at ho
        rcases ho with rfl
        exact ⟨_, rfl⟩)
  · exact (C3_id_allocation (run [planCall] State.empty)
      [barrierCall, barrierCallB]).2.2.2.1 rfl
      (by simp [barrierCall, barrierCallB, Cmd.isBarrierCreate])
      (by
        intro o ho
        have hruns : runOuts [barrierCall, barrierCallB]
            (run [planCall] State.empty) =
            [Except.ok (RetVal.id 1), Except.ok (RetVal.id 2)] := rfl
        rw [hruns] at ho
        simp only [List.mem_cons, List.not_mem_nil, or_false] at ho
        rcases ho with rfl | rfl <;> exact ⟨_, rfl⟩)
  · exact (C3_id_allocation (run [planCall] State.empty)
      [reviewCall]).2.2.2.2.1 rfl
      (by simp [reviewCall, Cmd.isReviewCreate])
      (by
        intro o ho
        have hruns : runOuts [reviewCall] (run [planCall] State.empty) =
            [Except.ok (RetVal.id 1)] := rfl
        rw [hruns] at ho
        simp only [List.mem_cons, List.not_mem_nil, or_false] at ho
        rcases ho with rfl
        exact ⟨_, rfl⟩)
  · exact (C3_id_allocation State.empty
      [⟨authNone, 0, Cmd.createCarePlan 1 2 "chronic" [] [] 1000 7⟩]).2.2.2.2.2
      ⟨authNone, 0, Cmd.createCarePlan 1 2 "chronic" [] [] 1000 7⟩
      Error.Unauthorized rfl

/-- C5: a plan's `next_review_date` equals
`start_date + review_frequency_days * 86400` from the moment
`create_care_plan` returns, and no command other than a
`conduct_care_plan_review` on a review owned by that plan ever changes
it. -/
theorem C5_next_review_fixed (a : Addr → Bool) (now : Nat) (pat pv : Addr)
    (pt : Str) (conds goals : List Str) (sd fr : Nat) (s : State)
    (c : Call) (p : Nat) :
    (a pv = true →
      (create_care_plan a now pat pv pt conds goals sd fr s).fst =
        Except.ok (s.carePlanCounter + 1) ∧
      ∃ plan, load_care_plan
          (create_care_plan a now pat pv pt conds goals sd fr s).snd
          (s.carePlanCounter + 1) = some plan ∧
        plan.next_review_date = sd + fr * 86400 ∧
        plan.start_date = sd ∧ plan.review_frequency_days = fr) ∧
    (Inv s → ∀ plan, load_care_plan s p = some plan →
      (∀ rv pv2 nh mods cont, c.cmd = Cmd.conductReview rv pv2 nh mods cont →
        ∀ review, load_review s rv = some review →
          review.care_plan_id ≠ p) →
      ∃ plan2, load_care_plan (execCall c s).snd p = some plan2 ∧
        plan2.next_review_date = plan.next_review_date) := by
  constructor
  · intro ha
    constructor
    · simp [create_care_plan, ha, next_care_plan_id]
    · have hload : load_care_plan
          (create_care_plan a now pat pv pt conds goals sd fr s).snd
          (s.carePlanCounter + 1) =
          some { care_plan_id := s.carePlanCounter + 1
                 patient_id := pat
                 provider_id := pv
                 plan_type := pt
                 conditions := conds
                 goals := goals
                 start_date := sd
                 review_frequency_days := fr
                 status := CarePlanStatus.Active
                 next_review_date := sd + fr * 86400
                 last_review_date := none
                 created_at := now } := by
        simp only [create_care_plan, ha, if_true, next_care_plan_id,
          save_care_plan, add_patient_plan, load_care_plan]
        exact upd_same _ _ _
      exact ⟨_, hload, rfl, rfl, rfl⟩
  · intro hInv plan hp hnc
    have hp2 : s.carePlans p = some plan := hp
    have hle : p ≤ s.carePlanCounter := bound_le hInv.planBound hp2
    obtain ⟨ca, cn, ccmd⟩ := c
    cases ccmd with
    | createCarePlan pat2 pv2 pt2 conds2 goals2 sd2 fr2 =>
      refine ⟨plan, ?_, rfl⟩
      by_cases ha : ca pv2
      · simp only [execCall, exec, create_care_plan, ha, if_true,
          next_care_plan_id, save_care_plan, add_patient_plan,
          load_care_plan]
        rw [upd_ne _ _ _ (by omega)]
        exact hp2
      · simp [execCall, exec, create_care_plan, ha, load_care_plan, hp2]
    | addCareGoal cp pv2 d tv td pr =>
      refine ⟨plan, ?_, rfl⟩
      by_cases ha : ca pv2
      · cases hl : s.carePlans cp with
        | none =>
          simp [execCall, exec, add_care_goal, ha, hl, load_care_plan, hp2]
        | some plan0 =>
          simp [execCall, exec, add_care_goal, ha, hl, next_goal_id,
            save_goal, add_plan_goal, load_care_plan, hp2]
      · simp [execCall, exec, add_care_goal, ha, load_care_plan, hp2]
    | addIntervention cp pv2 it d f rp =>
      refine ⟨plan, ?_, rfl⟩
      by_cases ha : ca pv2
      · cases hl : s.carePlans cp with
        | none =>
          simp [execCall, exec, add_intervention, ha, hl, load_care_plan,
            hp2]
        | some plan0 =>
          simp [execCall, exec, add_intervention, ha, hl,
            next_intervention_id, save_intervention, add_plan_intervention,
            load_care_plan, hp2]
      · simp [execCall, exec, add_intervention, ha, load_care_plan, hp2]
    | recordGoalProgress g pat2 cv pn rd =>
      refine ⟨plan, ?_, rfl⟩
      by_cases ha : ca pat2
      · cases hl : s.goalsMap g with
        | none =>
          simp [execCall, exec, record_goal_progress, load_goal, ha, hl,
            load_care_plan, hp2]
        | some goal =>
          by_cases h1 : goal.status = GoalStatus.Achieved
          · simp [execCall, exec, record_goal_progress, load_goal, ha, hl, h1,
              load_care_plan, hp2]
          by_cases h2 : goal.status = GoalStatus.Discontinued
          · simp [execCall, exec, record_goal_progress, load_goal, ha, hl, h1, h2,
              load_care_plan, hp2]
          simp [execCall, exec, record_goal_progress, load_goal, ha, hl, h1, h2,
            save_goal, load_care_plan, hp2]
      · simp [execCall, exec, record_goal_progress, ha, load_care_plan, hp2]
    | markGoalAchieved g pv2 ad o =>
      refine ⟨plan, ?_, rfl⟩
      by_cases ha : ca pv2
      · cases hl : s.goalsMap g with
        | none =>
          simp [execCall, exec, mark_goal_achieved, load_goal, ha, hl, load_care_plan,
            hp2]
        | some goal =>
          by_cases h1 : goal.status = GoalStatus.Achieved
          · simp [execCall, exec, mark_goal_achieved, load_goal, ha, hl, h1,
              load_care_plan, hp2]
          by_cases h2 : goal.status = GoalStatus.Discontinued
          · simp [execCall, exec, mark_goal_achieved, load_goal, ha, hl, h1, h2,
              load_care_plan, hp2]
          simp [execCall, exec, mark_goal_achieved, load_goal, ha, hl, h1, h2,
            save_goal, load_care_plan, hp2]
      · simp [execCall, exec, mark_goal_achieved, ha, load_care_plan, hp2]
    | addBarrier cp rep bt d idd =>
      refine ⟨plan, ?_, rfl⟩
      by_cases ha : ca rep
      · cases hl : s.carePlans cp with
        | none =>
          simp [execCall, exec, add_barrier, ha, hl, load_care_plan, hp2]
        | some plan0 =>
          simp [execCall, exec, add_barrier, ha, hl, next_barrier_id,
            save_barrier, add_plan_barrier, load_care_plan, hp2]
      · simp [execCall, exec, add_barrier, ha, load_care_plan, hp2]
    | resolveBarrier b pv2 res rd =>
      refine ⟨plan, ?_, rfl⟩
      by_cases ha : ca pv2
      · cases hl : s.barriersMap b with
        | none =>
          simp [execCall, exec, resolve_barrier, load_barrier, ha, hl, load_care_plan,
            hp2]
        | some barrier =>
          by_cases h1 : barrier.resolved <;>
            simp [execCall, exec, resolve_barrier, load_barrier, ha, hl, h1, save_barrier,
              load_care_plan, hp2]
      · simp [execCall, exec, resolve_barrier, ha, load_care_plan, hp2]
    | scheduleReview cp pv2 rd rt =>
      refine ⟨plan, ?_, rfl⟩
      by_cases ha : ca pv2
      · cases hl : s.carePlans cp with
        | none =>
          simp [execCall, exec, schedule_care_plan_review, ha, hl,
            load_care_plan, hp2]
        | some plan0 =>
          simp [execCall, exec, schedule_care_plan_review, ha, hl,
            next_review_id, save_review, add_plan_review, load_care_plan,
            hp2]
      · simp [execCall, exec, schedule_care_plan_review, ha,
          load_care_plan, hp2]
    | conductReview rv pv2 nh mods cont =>
      refine ⟨plan, ?_, rfl⟩
      by_cases ha : ca pv2
      · cases hl : s.reviewsMap rv with
        | none =>
          simp [execCall, exec, conduct_care_plan_review, load_review, ha, hl,
            load_care_plan, hp2]
        | some review =>
          by_cases h1 : review.conducted
          · simp [execCall, exec, conduct_care_plan_review, load_review, ha, hl, h1,
              load_care_plan, hp2]
          have hnp : review.care_plan_id ≠ p :=
            hnc rv pv2 nh mods cont rfl review hl
          cases hpl : s.carePlans review.care_plan_id with
          | none =>
            simp [execCall, exec, conduct_care_plan_review, load_review, ha, hl, h1,
              hpl, save_review, load_care_plan, hp2]
          | some plan0 =>
            have hkey : plan0.care_plan_id = review.care_plan_id :=
              hInv.planKey _ plan0 hpl
            simp only [execCall, exec, conduct_care_plan_review,
              load_review, ha, if_true, hl, h1, if_false, Bool.false_eq_true,
              hpl, save_care_plan, save_review, load_care_plan]
            rw [upd_ne]
            · exact hp2
            · rw [hkey]
              exact fun hEq => hnp hEq.symm
      · simp [execCall, exec, conduct_care_plan_review, ha, load_care_plan,
          hp2]
    | assignTeamMember cp co tm role resp =>
      refine ⟨plan, ?_, rfl⟩
      by_cases ha : ca co
      · cases hl : s.carePlans cp with
        | none =>
          simp [execCall, exec, assign_care_team_member, ha, hl,
            load_care_plan, hp2]
        | some plan0 =>
          simp [execCall, exec, assign_care_team_member, ha, hl,
            load_care_team, save_care_team, load_care_plan, hp2]
      · simp [execCall, exec, assign_care_team_member, ha, load_care_plan,
          hp2]
    | getSummary cp rq =>
      refine ⟨plan, ?_, rfl⟩
      have hs : (execCall ⟨ca, cn, Cmd.getSummary cp rq⟩ s).snd =
          (get_care_plan_summary ca cp rq s).snd := rfl
      rw [hs, get_summary_snd]
      exact hp

/-- Witness for C5: creating a plan with `start_date = 1000` and
`review_frequency_days = 7` yields `next_review_date = 605800`, and a
subsequent `add_care_goal` on that plan leaves it at 605800. -/
theorem C5_next_review_fixed_witness :
    ((create_care_plan authAll 100 1 2 "chronic" [] [] 1000 7
        State.empty).fst = Except.ok 1 ∧
      ∃ plan, load_care_plan
          (create_care_plan authAll 100 1 2 "chronic" [] [] 1000 7
            State.empty).snd 1 = some plan ∧
        plan.next_review_date = 605800) ∧
    (∃ plan2, load_care_plan (execCall goalCall sPG).snd 1 = some plan2 ∧
      plan2.next_review_date = 605800) := by
  constructor
  · obtain ⟨hfst, plan, hld, hnext, _, _⟩ :=
      (C5_next_review_fixed authAll 100 1 2 "chronic" [] [] 1000 7
        State.empty goalCall 1).1 rfl
    exact ⟨hfst, plan, hld, by rw [hnext]⟩
  · obtain ⟨plan, hp⟩ : ∃ plan, load_care_plan sPG 1 = some plan := ⟨_, rfl⟩
    obtain ⟨plan2, h1, h2⟩ :=
      (C5_next_review_fixed authAll 100 1 2 "chronic" [] [] 1000 7 sPG
        goalCall 1).2 (Inv_run [planCall, goalCall] Inv_empty) plan hp
        (fun rv pv2 nh mods cont hEq => Cmd.noConfusion hEq)
    refine ⟨plan2, h1, ?_⟩
    rw [h2]
    have hval : plan.next_review_date = 605800 := by
      have hpv : load_care_plan sPG 1 = some plan := hp
      have : plan = { care_plan_id := 1
                      patient_id := 1
                      provider_id := 2
                      plan_type := "chronic"
                      conditions := []
                      goals := []
                      start_date := 1000
                      review_frequency_days := 7
                      status := CarePlanStatus.Active
                      next_review_date := 605800
                      last_review_date := none
                      created_at := 100 } := by
        have hconc : load_care_plan sPG 1 =
            some { care_plan_id := 1
                   patient_id := 1
                   provider_id := 2
                   plan_type := "chronic"
                   conditions := []
                   goals := []
                   start_date := 1000
                   review_frequency_days := 7
                   status := CarePlanStatus.Active
                   next_review_date := 605800
                   last_review_date := none
                   created_at := 100 } := by rfl
        have := hpv.symm.trans hconc
        injection this
      rw [this]
    exact hval

/-- C8: `resolve_barrier` succeeds exactly when the barrier exists and is
unresolved, in which case it sets `resolved = true` together with the
resolution text, date and resolving principal in one step; it fails with
`BarrierNotFound` when the barrier does not exist and with
`BarrierAlreadyResolved` when it is already resolved, leaving the store
unchanged in both failure cases. -/
theorem C8_resolve_barrier (a : Addr → Bool) (b : Nat) (pv : Addr)
    (res : Str) (rd : Nat) (s : State) (ha : a pv = true) :
    (∀ barrier, s.barriersMap b = some barrier → barrier.barrier_id = b →
      barrier.resolved = false →
      (resolve_barrier a b pv res rd s).fst = Except.ok () ∧
      (resolve_barrier a b pv res rd s).snd.barriersMap b =
        some { barrier with
                 resolved := true
                 resolution := some res
                 resolution_date := some rd
                 resolved_by := some pv }) ∧
    (∀ barrier, s.barriersMap b = some barrier → barrier.resolved = true →
      resolve_barrier a b pv res rd s =
        (Except.error Error.BarrierAlreadyResolved, s)) ∧
    (s.barriersMap b = none →
      resolve_barrier a b pv res rd s =
        (Except.error Error.BarrierNotFound, s)) := by
  refine ⟨?_, ?_, ?_⟩
  · intro barrier hb hkey hnr
    constructor
    · simp [resolve_barrier, ha, load_barrier, hb, hnr]
    · simp only [resolve_barrier, ha, if_true, load_barrier, hb, hnr,
        Bool.false_eq_true, if_false, save_barrier]
      rw [hkey]
      exact upd_same _ _ _
  · intro barrier hb hr
    simp [resolve_barrier, ha, load_barrier, hb, hr]
  · intro hb
    simp [resolve_barrier, ha, load_barrier, hb]

/-- Witness for C8: on `sPB` barrier 1 is unresolved and resolving it
succeeds with the resolution fields set; after resolving it once, a second
attempt fails with `BarrierAlreadyResolved`; on the empty store the call
fails with `BarrierNotFound`. -/
theorem C8_resolve_barrier_witness :
    ((resolve_barrier authAll 1 2 "bus pass" 1300 sPB).fst =
      Except.ok ()) ∧
    (resolve_barrier authAll 1 2 "again" 1400
        (run [planCall, barrierCall, resolveCall] State.empty) =
      (Except.error Error.BarrierAlreadyResolved,
        run [planCall, barrierCall, resolveCall] State.empty)) ∧
    (resolve_barrier authAll 1 2 "bus pass" 1300 State.empty =
      (Except.error Error.BarrierNotFound, State.empty)) := by
  refine ⟨?_, ?_, ?_⟩
  · obtain ⟨barrier, hb⟩ : ∃ barrier, sPB.barriersMap 1 = some barrier :=
      ⟨_, rfl⟩
    exact ((C8_resolve_barrier authAll 1 2 "bus pass" 1300 sPB rfl).1
      barrier hb (by
        have hconc : sPB.barriersMap 1 =
            some { barrier_id := 1
                   care_plan_id := 1
                   reporter := 3
                   barrier_type := "transport"
                   description := "no car"
                   identified_date := 1200
                   resolved := false
                   resolution := none
                   resolution_date := none
                   resolved_by := none } := rfl
        have hbe := hb.symm.trans hconc
        injection hbe with hbe2
        rw [hbe2])
      (by
        have hconc : sPB.barriersMap 1 =
            some { barrier_id := 1
                   care_plan_id := 1
                   reporter := 3
                   barrier_type := "transport"
                   description := "no car"
                   identified_date := 1200
                   resolved := false
                   resolution := none
                   resolution_date := none
                   resolved_by := none } := rfl
        have hbe := hb.symm.trans hconc
        injection hbe with hbe2
        rw [hbe2])).1
  · obtain ⟨barrier, hb⟩ : ∃ barrier,
        (run [planCall, barrierCall, resolveCall]
          State.empty).barriersMap 1 = some barrier := ⟨_, rfl⟩
    refine (C8_resolve_barrier authAll 1 2 "again" 1400
      (run [planCall, barrierCall, resolveCall] State.empty) rfl).2.1
      barrier hb ?_
    have hconc : (run [planCall, barrierCall, resolveCall]
        State.empty).barriersMap 1 =
        some { barrier_id := 1
               care_plan_id := 1
               reporter := 3
               barrier_type := "transport"
               description := "no car"
               identified_date := 1200
               resolved := true
               resolution := some "bus pass"
               resolution_date := some 1300
               resolved_by := some 2 } := rfl
    have hbe := hb.symm.trans hconc
    injection hbe with hbe2
    rw [hbe2]
  · exact (C8_resolve_barrier authAll 1 2 "bus pass" 1300
      State.empty rfl).2.2 rfl

/-- C10: the result of `get_care_plan_summary` is identical for any two
authorized requesters — the requester feeds only the authorization gate
and is never compared against the plan's patient, provider or care team —
and the call never changes the store. -/
theorem C10_summary_requester_independent (s : State) (cp : Nat)
    (a1 a2 : Addr → Bool) (rq1 rq2 : Addr)
    (h1 : a1 rq1 = true) (h2 : a2 rq2 = true) :
    (get_care_plan_summary a1 cp rq1 s).fst =
      (get_care_plan_summary a2 cp rq2 s).fst ∧
    (get_care_plan_summary a1 cp rq1 s).snd = s ∧
    (get_care_plan_summary a2 cp rq2 s).snd = s := by
  refine ⟨?_, get_summary_snd a1 cp rq1 s, get_summary_snd a2 cp rq2 s⟩
  cases hl : load_care_plan s cp <;>
    simp [get_care_plan_summary, h1, h2, hl]

/-- Witness for C10: requesters 7 and 8 read the same summary of plan 1
in `sPG`. -/
theorem C10_summary_requester_independent_witness :
    (get_care_plan_summary authAll 1 7 sPG).fst =
      (get_care_plan_summary authAll 1 8 sPG).fst ∧
    (get_care_plan_summary authAll 1 7 sPG).snd = sPG ∧
    (get_care_plan_summary authAll 1 8 sPG).snd = sPG :=
  C10_summary_requester_independent sPG 1 authAll authAll 7 8 rfl rfl

/-- C7: immediately after `create_care_plan` succeeds,
`get_care_plan_summary` on the new id by any authorized requester returns
the same plan id, patient id and plan type, `last_review_date = none`,
the `next_review_date` computed at creation, and empty goal,
intervention, barrier and care-team lists. -/
theorem C7_create_summary_roundtrip (a : Addr → Bool) (now : Nat)
    (pat pv : Addr) (pt : Str) (conds goals : List Str) (sd fr : Nat)
    (s : State) (hInv : Inv s) (ha : a pv = true)
    (a2 : Addr → Bool) (rq : Addr) (ha2 : a2 rq = true) :
    ∃ id, (create_care_plan a now pat pv pt conds goals sd fr s).fst =
        Except.ok id ∧
      (get_care_plan_summary a2 id rq
          (create_care_plan a now pat pv pt conds goals sd fr s).snd).fst =
        Except.ok { care_plan_id := id
                    patient_id := pat
                    plan_type := pt
                    active_goals := []
                    interventions := []
                    care_team := []
                    barriers := []
                    last_review_date := none
                    next_review_date := sd + fr * 86400 } := by
  have hnone : s.carePlans (s.carePlanCounter + 1) = none :=
    hInv.planBound _ (by omega)
  obtain ⟨hg, hi, hb, hr, ht⟩ := hInv.emptyChildren _ hnone
  refine ⟨s.carePlanCounter + 1, ?_, ?_⟩
  · simp [create_care_plan, ha, next_care_plan_id]
  · simp [create_care_plan, ha, next_care_plan_id, save_care_plan,
      add_patient_plan, get_care_plan_summary, ha2, load_care_plan,
      load_plan_goals, load_plan_interventions, load_care_team,
      load_plan_barriers, load_barrier, upd, hg, hi, hb, hr, ht]

/-- Witness for C7: create a plan on the empty store and read its summary
back as requester 9. -/
theorem C7_create_summary_roundtrip_witness :
    ∃ id, (create_care_plan authAll 100 1 2 "chronic" [] [] 1000 7
        State.empty).fst = Except.ok id ∧
      (get_care_plan_summary authAll id 9
          (create_care_plan authAll 100 1 2 "chronic" [] [] 1000 7
            State.empty).snd).fst =
        Except.ok { care_plan_id := id
                    patient_id := 1
                    plan_type := "chronic"
                    active_goals := []
                    interventions := []
                    care_team := []
                    barriers := []
                    last_review_date := none
                    next_review_date := 1000 + 7 * 86400 } :=
  C7_create_summary_roundtrip authAll 100 1 2 "chronic" [] [] 1000 7
    State.empty Inv_empty rfl authAll 9 rfl

/-- C2: conducting an unconducted review succeeds, stamps the review with
the given fields and `conducted_at = now`, and — when the owning plan
exists — sets its `last_review_date`, recomputes `next_review_date`, and
sets `Completed` exactly when `continue_plan` is false; when the plan does
not exist the plan namespace is untouched and no error is raised.  A
conducted review is rejected with `ReviewAlreadyConducted`, a missing one
with `ReviewNotFound`, both leaving the store unchanged. -/
theorem C2_conduct_review (a : Addr → Bool) (now : Nat) (rv : Nat)
    (pv : Addr) (nh : Hash) (mods : List Str) (cont : Bool) (s : State)
    (ha : a pv = true) :
    (∀ review, s.reviewsMap rv = some review → review.review_id = rv →
      review.conducted = false →
      (conduct_care_plan_review a now rv pv nh mods cont s).fst =
        Except.ok () ∧
      (conduct_care_plan_review a now rv pv nh mods cont s).snd.reviewsMap
          rv =
        some { review with
                 conducted := true
                 review_notes_hash := some nh
                 plan_modifications := mods
                 continue_plan := cont
                 conducted_by := some pv
                 conducted_at := some now } ∧
      (∀ plan, s.carePlans review.care_plan_id = some plan →
        plan.care_plan_id = review.care_plan_id →
        (conduct_care_plan_review a now rv pv nh mods cont
            s).snd.carePlans review.care_plan_id =
          some { plan with
                   last_review_date := some now
                   next_review_date :=
                     now + plan.review_frequency_days * 86400
                   status := if cont then plan.status
                     else CarePlanStatus.Completed }) ∧
      (s.carePlans review.care_plan_id = none →
        (conduct_care_plan_review a now rv pv nh mods cont
          s).snd.carePlans = s.carePlans)) ∧
    (∀ review, s.reviewsMap rv = some review → review.conducted = true →
      conduct_care_plan_review a now rv pv nh mods cont s =
        (Except.error Error.ReviewAlreadyConducted, s)) ∧
    (s.reviewsMap rv = none →
      conduct_care_plan_review a now rv pv nh mods cont s =
        (Except.error Error.ReviewNotFound, s)) := by
  refine ⟨?_, ?_, ?_⟩
  · intro review hrev hkey hnc
    refine ⟨?_, ?_, ?_, ?_⟩
    · cases hp : s.carePlans review.care_plan_id <;>
        simp [conduct_care_plan_review, ha, load_review, hrev, hnc,
          load_care_plan, hp, save_care_plan, save_review]
    · cases hp : s.carePlans review.care_plan_id with
      | none =>
        simp only [conduct_care_plan_review, ha, if_true, load_review,
          hrev, hnc, Bool.false_eq_true, if_false, load_care_plan, hp,
          save_review]
        rw [hkey]
        exact upd_same _ _ _
      | some plan =>
        simp only [conduct_care_plan_review, ha, if_true, load_review,
          hrev, hnc, Bool.false_eq_true, if_false, load_care_plan, hp,
          save_care_plan, save_review]
        rw [hkey]
        exact upd_same _ _ _
    · intro plan hp hpk
      simp only [conduct_care_plan_review, ha, if_true, load_review,
        hrev, hnc, Bool.false_eq_true, if_false, load_care_plan, hp,
        save_care_plan, save_review]
      rw [hpk]
      exact upd_same _ _ _
    · intro hp
      simp only [conduct_care_plan_review, ha, if_true, load_review,
        hrev, hnc, Bool.false_eq_true, if_false, load_care_plan, hp,
        save_review]
  · intro review hrev hc
    simp [conduct_care_plan_review, ha, load_review, hrev, hc]
  · intro hrev
    simp [conduct_care_plan_review, ha, load_review, hrev]

/-- Witness for C2: conducting review 1 of plan 1 in `sPR` at time 700000
with `continue_plan = false` succeeds, stamps the review, and cascades
into the plan (`last_review_date = 700000`,
`next_review_date = 700000 + 604800 = 1304800`, status `Completed`);
conducting it again fails with `ReviewAlreadyConducted`; conducting on
the empty store fails with `ReviewNotFound`. -/
theorem C2_conduct_review_witness :
    (conduct_care_plan_review authAll 700000 1 2 42 ["adjust dosage"]
      false sPR).fst = Except.ok () ∧
    (conduct_care_plan_review authAll 700000 1 2 42 ["adjust dosage"]
      false sPR).snd.carePlans 1 =
      some { care_plan_id := 1
             patient_id := 1
             provider_id := 2
             plan_type := "chronic"
             conditions := []
             goals := []
             start_date := 1000
             review_frequency_days := 7
             status := CarePlanStatus.Completed
             next_review_date := 1304800
             last_review_date := some 700000
             created_at := 100 } ∧
    conduct_care_plan_review authAll 800000 1 2 43 [] true
        (conduct_care_plan_review authAll 700000 1 2 42 ["adjust dosage"]
          false sPR).snd =
      (Except.error Error.ReviewAlreadyConducted,
        (conduct_care_plan_review authAll 700000 1 2 42 ["adjust dosage"]
          false sPR).snd) ∧
    conduct_care_plan_review authAll 700000 1 2 42 [] false State.empty =
      (Except.error Error.ReviewNotFound, State.empty) := by
  obtain ⟨review, hrev⟩ : ∃ review, sPR.reviewsMap 1 = some review :=
    ⟨_, rfl⟩
  have hconc : sPR.reviewsMap 1 =
      some { review_id := 1
             care_plan_id := 1
             scheduled_by := 2
             review_date := 605800
             review_type := "routine"
             conducted := false
             review_notes_hash := none
             plan_modifications := []
             continue_plan := true
             conducted_by := none
             conducted_at := none } := rfl
  have hre := hrev.symm.trans hconc
  injection hre with hre2
  have hkey : review.review_id = 1 := by rw [hre2]
  have hnc : review.conducted = false := by rw [hre2]
  obtain ⟨hok, hrmap, hplan, hnone⟩ :=
    (C2_conduct_review authAll 700000 1 2 42 ["adjust dosage"] false sPR
      rfl).1 review hrev hkey hnc
  obtain ⟨plan, hp⟩ : ∃ plan, sPR.carePlans review.care_plan_id =
      some plan := by rw [hre2]; exact ⟨_, rfl⟩
  have hpconc : sPR.carePlans review.care_plan_id =
      some { care_plan_id := 1
             patient_id := 1
             provider_id := 2
             plan_type := "chronic"
             conditions := []
             goals := []
             start_date := 1000
             review_frequency_days := 7
             status := CarePlanStatus.Active
             next_review_date := 605800
             last_review_date := none
             created_at := 100 } := by rw [hre2]; exact rfl
  have hpe := hp.symm.trans hpconc
  injection hpe with hpe2
  have hpk : plan.care_plan_id = review.care_plan_id := by
    simp [hpe2, hre2]
  refine ⟨hok, ?_, ?_, ?_⟩
  · have hres := hplan plan hp hpk
    rw [hre2] at hres
    rw [hpe2] at hres
    exact hres
  · obtain ⟨review2, hrev2⟩ : ∃ review2,
        (conduct_care_plan_review authAll 700000 1 2 42 ["adjust dosage"]
          false sPR).snd.reviewsMap 1 = some review2 := by
      refine ⟨_, hrmap⟩
    have hc2 : review2.conducted = true := by
      have hre3 := hrev2.symm.trans hrmap
      injection hre3 with hre4
      rw [hre4]
    exact (C2_conduct_review authAll 800000 1 2 43 [] true
      (conduct_care_plan_review authAll 700000 1 2 42 ["adjust dosage"]
        false sPR).snd rfl).2.1 review2 hrev2 hc2
  · exact (C2_conduct_review authAll 700000 1 2 42 [] false State.empty
      rfl).2.2 rfl

/-- The guarded goal-collection loop of the summary projection equals a
status filter over the resolved goal records. -/
theorem active_goals_filter (s : State) (l : List Nat) :
    (l.filterMap fun id =>
      match load_goal s id with
      | some g =>
        if g.status = GoalStatus.Achieved ∨
            g.status = GoalStatus.Discontinued then none
        else some g
      | none => none) =
    (l.filterMap s.goalsMap).filter
      (fun g => decide ¬(g.status = GoalStatus.Achieved ∨
        g.status = GoalStatus.Discontinued)) := by
  induction l with
  | nil => rfl
  | cons i l ih =>
    simp only [List.filterMap_cons]
    rw [show load_goal s i = s.goalsMap i from rfl]
    cases hm : s.goalsMap i with
    | none => simpa using ih
    | some v =>
      dsimp only
      rw [ih]
      by_cases hp : v.status = GoalStatus.Achieved ∨
          v.status = GoalStatus.Discontinued
      · rw [if_pos hp]
        have hp2 : ¬(¬v.status = GoalStatus.Achieved ∧
            ¬v.status = GoalStatus.Discontinued) := by
          rcases hp with h | h
          · exact fun hc => hc.1 h
          · exact fun hc => hc.2 h
        simp [List.filter_cons, if_neg hp2]
      · rw [if_neg hp]
        have hp2 : ¬v.status = GoalStatus.Achieved ∧
            ¬v.status = GoalStatus.Discontinued := by
          push_neg at hp
          exact hp
        simp [List.filter_cons, hp2.1, hp2.2]

/-- When every id resolves, the record collection skips nothing. -/
theorem filterMap_total_length {α : Type} (m : Nat → Option α)
    (l : List Nat) (hres : ∀ i ∈ l, (m i).isSome) :
    (l.filterMap m).length = l.length := by
  induction l with
  | nil => rfl
  | cons i l ih =>
    have hi := hres i (List.mem_cons_self _ _)
    cases hm : m i with
    | none => rw [hm] at hi; cases hi
    | some v =>
      simp only [List.filterMap_cons, hm, List.length_cons]
      rw [ih (fun j hj => hres j (List.mem_cons_of_mem _ hj))]

/-- C6: for an existing plan, the summary contains exactly the indexed
goals whose status is neither `Achieved` nor `Discontinued` (and every
indexed goal id resolves, so none is silently skipped), the full
unfiltered intervention list, the full care-team roster, and the full
unfiltered barrier list — resolved and unresolved alike. -/
theorem C6_summary_filtering (a : Addr → Bool) (cp : Nat) (rq : Addr)
    (s : State) (hInv : Inv s) (ha : a rq = true) (plan : CarePlan)
    (hp : s.carePlans cp = some plan) :
    ∃ summary,
      (get_care_plan_summary a cp rq s).fst = Except.ok summary ∧
      summary.active_goals = (goalRecords s cp).filter
        (fun g => decide ¬(g.status = GoalStatus.Achieved ∨
          g.status = GoalStatus.Discontinued)) ∧
      (goalRecords s cp).length = (s.planGoals cp).length ∧
      summary.interventions = interventionRecords s cp ∧
      (interventionRecords s cp).length =
        (s.planInterventions cp).length ∧
      summary.care_team = s.planCareTeam cp ∧
      summary.barriers = barrierRecords s cp ∧
      (barrierRecords s cp).length = (s.planBarriers cp).length := by
  refine ⟨{ care_plan_id := cp
            patient_id := plan.patient_id
            plan_type := plan.plan_type
            active_goals := (load_plan_goals s cp).filterMap fun id =>
              match load_goal s id with
              | some g =>
                if g.status = GoalStatus.Achieved ∨
                    g.status = GoalStatus.Discontinued then none
                else some g
              | none => none
            interventions := (load_plan_interventions s cp).filterMap
              fun id => load_intervention s id
            care_team := load_care_team s cp
            barriers := load_plan_barriers s cp
            last_review_date := plan.last_review_date
            next_review_date := plan.next_review_date },
    ?_, ?_, ?_, ?_, ?_, ?_, ?_, ?_⟩
  · simp only [get_care_plan_summary, ha, if_true, load_care_plan, hp]
  · exact active_goals_filter s (s.planGoals cp)
  · refine filterMap_total_length s.goalsMap (s.planGoals cp) ?_
    intro i hi
    obtain ⟨g, hg, _⟩ := hInv.goalResolve cp i hi
    rw [hg]; rfl
  · rfl
  · refine filterMap_total_length s.interventionsMap
      (s.planInterventions cp) ?_
    intro i hi
    obtain ⟨x, hx, _⟩ := hInv.intResolve cp i hi
    rw [hx]; rfl
  · rfl
  · rfl
  · refine filterMap_total_length s.barriersMap (s.planBarriers cp) ?_
    intro i hi
    obtain ⟨b, hb, _⟩ := hInv.barResolve cp i hi
    rw [hb]; rfl

/-- Witness for C6: in `sC6`, goal 1 is achieved and goal 2 active, so
`active_goals` holds exactly goal 2, while both the resolved barrier 1
and the unresolved barrier 2 appear in `barriers`. -/
theorem C6_summary_filtering_witness :
    ∃ summary,
      (get_care_plan_summary authAll 1 9 sC6).fst = Except.ok summary ∧
      summary.active_goals =
        [{ goal_id := 2
           care_plan_id := 1
           description := "sleep well"
           target_value := none
           target_date := 2100
           priority := "low"
           status := GoalStatus.Active
           progress_entries := []
           achievement_date := none
           outcome_notes := none
           created_by := 2
           created_at := 111 }] ∧
      summary.barriers =
        [{ barrier_id := 1
           care_plan_id := 1
           reporter := 3
           barrier_type := "transport"
           description := "no car"
           identified_date := 1200
           resolved := true
           resolution := some "bus pass"
           resolution_date := some 1300
           resolved_by := some 2 },
         { barrier_id := 2
           care_plan_id := 1
           reporter := 3
           barrier_type := "cost"
           description := "expensive"
           identified_date := 1250
           resolved := false
           resolution := none
           resolution_date := none
           resolved_by := none }] := by
  obtain ⟨plan, hp⟩ : ∃ plan, sC6.carePlans 1 = some plan := ⟨_, rfl⟩
  obtain ⟨summary, hfst, hag, _, _, _, _, hbar, _⟩ :=
    C6_summary_filtering authAll 1 9 sC6
      (Inv_run [planCall, goalCall, goalCallB, markCall, barrierCall,
        barrierCallB, resolveCall] Inv_empty) rfl plan hp
  refine ⟨summary, hfst, ?_, ?_⟩
  · exact hag.trans (by rfl)
  · exact hbar.trans (by rfl)

/-- C9: in every state reachable from the empty store, every child id in
a plan's goal, intervention, barrier or review index resolves to a stored
record whose owning `care_plan_id` equals that plan's id — so the
defensive skip-if-missing branches of the summary projection never drop
an indexed child. -/
theorem C9_index_integrity (cs : List Call) (p : Nat) :
    (∀ gid ∈ (run cs State.empty).planGoals p,
      ∃ g, load_goal (run cs State.empty) gid = some g ∧
        g.care_plan_id = p) ∧
    (∀ iid ∈ (run cs State.empty).planInterventions p,
      ∃ x, load_intervention (run cs State.empty) iid = some x ∧
        x.care_plan_id = p) ∧
    (∀ bid ∈ (run cs State.empty).planBarriers p,
      ∃ b, load_barrier (run cs State.empty) bid = some b ∧
        b.care_plan_id = p) ∧
    (∀ rid ∈ (run cs State.empty).planReviews p,
      ∃ r, load_review (run cs State.empty) rid = some r ∧
        r.care_plan_id = p) := by
  have h := Inv_run cs Inv_empty
  exact ⟨h.goalResolve p, h.intResolve p, h.barResolve p, h.revResolve p⟩

/-- Witness for C9: after creating plan 1 with one goal, intervention,
barrier and review, each index holds id 1 and it resolves to a record
owned by plan 1. -/
theorem C9_index_integrity_witness :
    (∃ g, load_goal (run [planCall, goalCall, interventionCall,
        barrierCall, reviewCall] State.empty) 1 = some g ∧
      g.care_plan_id = 1) ∧
    (∃ x, load_intervention (run [planCall, goalCall, interventionCall,
        barrierCall, reviewCall] State.empty) 1 = some x ∧
      x.care_plan_id = 1) ∧
    (∃ b, load_barrier (run [planCall, goalCall, interventionCall,
        barrierCall, reviewCall] State.empty) 1 = some b ∧
      b.care_plan_id = 1) ∧
    (∃ r, load_review (run [planCall, goalCall, interventionCall,
        barrierCall, reviewCall] State.empty) 1 = some r ∧
      r.care_plan_id = 1) := by
  have hg : (run [planCall, goalCall, interventionCall, barrierCall,
      reviewCall] State.empty).planGoals 1 = [1] := rfl
  have hi : (run [planCall, goalCall, interventionCall, barrierCall,
      reviewCall] State.empty).planInterventions 1 = [1] := rfl
  have hb : (run [planCall, goalCall, interventionCall, barrierCall,
      reviewCall] State.empty).planBarriers 1 = [1] := rfl
  have hr : (run [planCall, goalCall, interventionCall, barrierCall,
      reviewCall] State.empty).planReviews 1 = [1] := rfl
  obtain ⟨h1, h2, h3, h4⟩ := C9_index_integrity [planCall, goalCall,
    interventionCall, barrierCall, reviewCall] 1
  exact ⟨h1 1 (by rw [hg]; exact List.mem_singleton_self 1),
    h2 1 (by rw [hi]; exact List.mem_singleton_self 1),
    h3 1 (by rw [hb]; exact List.mem_singleton_self 1),
    h4 1 (by rw [hr]; exact List.mem_singleton_self 1)⟩

end CarePlanContract
